import Mathlib

/-!
Verification of the incremental item-rendering engine of the doorstop-edit
repository against its natural-language specification.

The development shallowly embeds the code of
`doorstop_edit/item_render/render_worker.py` (classes `ProgressTracker` and
`ItemRenderer`) together with the state-relevant surface of
`doorstop_edit/item_render/fragmented_markdown.py` (class
`FragmentedMarkdown`).  The external markdown conversion pipeline
(python-markdown preprocessors, block parser, tree processors and
serializers) is treated, as the specification prescribes, as a pluggable
pure conversion function; it is abstracted by the `MdEngine` record of
functions, and all theorems are universally quantified over it.

Python generators are embedded by returning, for each `process` call, the
full list of yielded pairs together with, for every yield, a snapshot of
the timestamp cache at the moment that yield suspends the generator (the
`trace` field).  Python's unbounded recursion at the "reference definitions
changed" restart is embedded with an explicit recursion budget: the code
restarts by calling itself with `partial=False` after clearing all caches,
and a restarted (cleared, full) pass that requests a second restart would
recurse with exactly the same cleared arguments, hence repeat forever
(in CPython: until `RecursionError`, which is caught by the
`except Exception` clause).  The `diverged` flag of a run marks exactly
this situation.
-/

namespace DoorstopEdit

/-! ## Python string helpers -/

/-- The characters Python's `str.strip`/`\s` treat as (ASCII) whitespace. -/
def pyWhitespace : List Char := [' ', '\t', '\n', '\x0b', '\x0c', '\r']

def isPySpace (c : Char) : Bool := pyWhitespace.contains c

/-- `not source.strip()`: the string is empty or all whitespace. -/
def pyIsBlank (s : String) : Bool := s.data.all isPySpace

/-- Helper for `pySplitlines`: split a character list at every newline. -/
def linesAux : List Char → List (List Char)
  | [] => [[]]
  | c :: rest =>
    if c = '\n' then [] :: linesAux rest
    else
      match linesAux rest with
      | [] => [[c]]
      | l :: ls => (c :: l) :: ls

/-- Python `str.splitlines()` (for texts whose line separator is `\n`):
`""` gives `[]`, a trailing newline produces no trailing empty line. -/
def pySplitlines (s : String) : List String :=
  if s.data.isEmpty then []
  else
    let parts := linesAux s.data
    (if s.data.getLast? = some '\n' then parts.dropLast else parts).map List.asString

/-- Python `sep.join(parts)`. -/
def pyJoin (sep : String) : List String → String
  | [] => ""
  | [s] => s
  | s :: rest => s ++ sep ++ pyJoin sep rest

/-- Python `str.capitalize()`. -/
def pyCapitalize (s : String) : String :=
  match s.data with
  | [] => ""
  | c :: rest => List.asString (c.toUpper :: rest.map Char.toLower)

/-- Python `str(b)` for a `bool`. -/
def pyBoolStr (b : Bool) : String := if b then "True" else "False"

/-- Number of occurrences of `.` in a string (Python `s.count(".")`). -/
def countDot (s : String) : Nat := s.data.count '.'

/-! ## The reference-definition regular expression

`ItemRenderer._prepare` collects markdown reference definitions with
`re.findall(r"^\s*\[(.*)\]:\s(.*)$", text, flags=re.MULTILINE)`, one match
per line, each match a pair of the two groups.  The functions below embed
that search line by line: leading whitespace, a literal `[`, a greedy first
group, the literal `]:`, one whitespace character, and the rest of the line
as the second group.  Greediness of `(.*)` means the *last* viable
`]:`-plus-whitespace split of the line is taken. -/

def refMatchCore : List Char → Option (List Char × List Char)
  | [] => none
  | c :: rest =>
    match refMatchCore rest with
    | some g => some (c :: g.1, g.2)
    | none =>
      match c, rest with
      | ']', ':' :: w :: g2 => if isPySpace w then some ([], g2) else none
      | _, _ => none

def matchRefLine (line : String) : Option (String × String) :=
  match line.data.dropWhile (fun c => isPySpace c) with
  | '[' :: rest => (refMatchCore rest).map fun g => (List.asString g.1, List.asString g.2)
  | _ => none

/-- All reference definitions found in a text, in line order. -/
def findRefs (text : String) : List (String × String) :=
  (pySplitlines text).filterMap matchRefLine

/-! ## Python `dict` as an insertion-ordered association list -/

def dlookup {α : Type} : List (String × α) → String → Option α
  | [], _ => none
  | p :: rest, k => if p.1 = k then some p.2 else dlookup rest k

/-- `d[k] = v`: replace the value if the key is present, else append. -/
def dinsert {α : Type} : List (String × α) → String → α → List (String × α)
  | [], k, v => [(k, v)]
  | p :: rest, k, v => if p.1 = k then (k, v) :: rest else p :: dinsert rest k v

/-! ## The data model: doorstop items (external entities, consumed read-only) -/

/-- Dynamic typing of `item.attribute(...)` results, dispatched in
`_prepare` by `isinstance` checks: strings, booleans, everything else. -/
inductive AttrVal where
  | str (s : String)
  | bool (b : Bool)
  | other
deriving DecidableEq, Repr

/-- A doorstop item as consumed by the renderer.  `levelParts` and
`levelHeading` mirror the external `doorstop.Level` value: the displayed
level is the dot-join of `levelParts`, with a trailing `0` appended when
`levelHeading` is true (spec §3: "a trailing zero denotes a header-only
pseudo-level"). -/
structure Item where
  uid : String
  levelParts : List Nat
  levelHeading : Bool
  normative : Bool
  text : String
  header : String
  publish : List String
  attrs : List (String × AttrVal)
  parentItems : List (String × String)
  childItems : List (String × String)
deriving DecidableEq, Repr

/-- The numeric components of `item.level`, trailing heading zero included. -/
def levelValue (item : Item) : List Nat :=
  item.levelParts ++ (if item.levelHeading then [0] else [])

/-- `str(item.level)`: the dot-join of the level components. -/
def levelStr (item : Item) : String :=
  pyJoin "." ((levelValue item).map Nat.repr)

/-- Modelled from the spec: `doorstop_edit.utils.item_utils.is_header_item`
is imported by `render_worker.py` but `item_utils.py` is not among the
provided sources.  Spec §3/§4.2.1 define a header item as non-normative
with a level ending in a zero component. -/
def is_header_item (item : Item) : Bool := !item.normative && item.levelHeading

/-- Modelled from the spec: normalization performed by the external
doorstop `Level` constructor (spec §3 describes the level as a
dot-separated sequence of non-negative integers whose trailing zero marks a
header).  doorstop collapses repeated trailing zeros to one, strips the
single trailing zero into the heading flag, and forces remaining zero
components to `1`.  Returns `(levelParts, levelHeading)`. -/
def levelOfRaw (raw : List Nat) : List Nat × Bool :=
  let zs := (raw.reverse.takeWhile fun n => n == 0).length
  let collapsed := if 2 ≤ zs then raw.take (raw.length - (zs - 1)) else raw
  match collapsed.getLast? with
  | some 0 => ((collapsed.dropLast).map fun n => if n = 0 then 1 else n, true)
  | _ => (collapsed.map fun n => if n = 0 then 1 else n, false)

/-! ## FragmentedMarkdown and the abstract markdown engine -/

/-- The external, pure markdown conversion pipeline (spec §1 excludes the
markdown-to-HTML primitives as "a pluggable external conversion function").
`renderAt base_dir sources i` is the serialized HTML of the `i`-th
registered fragment after the whole batch `sources` has been tree-processed
together (cross-fragment references make it depend on the whole batch);
`childCount source` is the number of children of the parsed block root of a
fragment (Python `len(Element)`, also its truthiness); `footerHtml` is the
concatenated rendering of the extra footer fragments the tree processors
append after the registered ones. -/
structure MdEngine where
  childCount : String → Nat
  renderAt : String → List String → Nat → String
  footerHtml : String → List String → String

/-- State of `FragmentedMarkdown`: the base directory given to the
constructor, the source text of every registered fragment (the children of
the shared `fragments` root), and the registered-fragment counter. -/
structure FragmentedMarkdown where
  base_dir : String
  fragments : List String
  num_fragments : Nat
deriving DecidableEq, Repr

/-- `FragmentedMarkdown(base_dir=root)`. -/
def FragmentedMarkdown.init (root : String) : FragmentedMarkdown :=
  ⟨root, [], 0⟩

/-- `reset()`: clear the fragment root and the counter. -/
def FragmentedMarkdown.reset (m : FragmentedMarkdown) : FragmentedMarkdown :=
  { m with fragments := [], num_fragments := 0 }

/-- `add_fragement(source)`: no-op returning `None` for blank input,
otherwise parse, append to the shared root and return the new fragment's
handle (embedded as its index). -/
def FragmentedMarkdown.add_fragement (m : FragmentedMarkdown) (source : String) :
    FragmentedMarkdown × Option Nat :=
  if pyIsBlank source then (m, none)
  else ({ m with fragments := m.fragments ++ [source]
                 num_fragments := m.num_fragments + 1 }, some m.fragments.length)

/-- `process_fragments()`: runs the tree processors over the shared root.
The mutation of the parse trees is external; rendering is deferred to
`MdEngine.renderAt` over the registered sources, so the embedded state is
unchanged. -/
def FragmentedMarkdown.process_fragments (m : FragmentedMarkdown) : FragmentedMarkdown := m

/-- `render_fragment(root)`: empty string for `None`, else serialized HTML. -/
def FragmentedMarkdown.render_fragment (e : MdEngine) (m : FragmentedMarkdown) :
    Option Nat → String
  | none => ""
  | some i => e.renderAt m.base_dir m.fragments i

/-- `render_footer()`: the rendering of the fragments appended by the tree
processors beyond the registered ones. -/
def FragmentedMarkdown.render_footer (e : MdEngine) (m : FragmentedMarkdown) : String :=
  e.footerHtml m.base_dir m.fragments

/-! ## ItemRenderer._prepare -/

/-- A row value: either a plain string or a registered fragment handle
(`Union[str, Element]` in the source). -/
inductive RowVal where
  | s (v : String)
  | elem (i : Nat)
deriving DecidableEq, Repr

/-- Embeds `add_fragement_proxy(text) or ""`: `None` becomes `""`, and a
parsed element with no children is falsy in Python (`len(Element) == 0`),
so it also becomes `""`. -/
def orEmptyRow (e : MdEngine) (src : String) : Option Nat → RowVal
  | none => .s ""
  | some i => if e.childCount src = 0 then .s "" else .elem i

/-- The item text `_prepare` registers as the "text" row: a header item's
body loses its first line (it became the heading). -/
def prepItemText (item : Item) : String :=
  if is_header_item item then pyJoin "\n" ((pySplitlines item.text).drop 1)
  else item.text

/-- One cross-reference link of the "parents"/"children" rows. -/
def linkHtml (q : String × String) : String :=
  "<a href=\"#\" onclick=\"open_item(event, \x27" ++ q.1 ++ "\x27)\">" ++
    q.1 ++ " " ++ q.2 ++ "</a>"

/-- The publish-attribute loop of `_prepare` (lines 158–168): one row per
document-configured publish attribute not already present, skipping absent
values, registering non-empty strings as fragments and booleans as their
literal string form.  Returns the mutated store, the extended rows and the
extended reference list. -/
def publishRows (e : MdEngine) (item : Item) :
    List String → FragmentedMarkdown → List (String × RowVal) → List (String × String) →
    FragmentedMarkdown × List (String × RowVal) × List (String × String)
  | [], md, rows, refs => (md, rows, refs)
  | attr :: rest, md, rows, refs =>
    if attr ∈ rows.map Prod.fst then publishRows e item rest md rows refs
    else
      match dlookup item.attrs attr with
      | none => publishRows e item rest md rows refs
      | some (.str v) =>
        if 0 < v.length then
          let a := md.add_fragement v
          publishRows e item rest a.1 (rows ++ [(attr, orEmptyRow e v a.2)])
            (refs ++ findRefs v)
        else publishRows e item rest md rows refs
      | some (.bool b) =>
        publishRows e item rest md (rows ++ [(attr, .s (pyBoolStr b))]) refs
      | some .other => publishRows e item rest md rows refs

/-- `ItemRenderer._prepare(md, item)`: build the rows and collect the
reference definitions declared by every registered text, threading the
fragment store.  Returns `(md, rows, refs)`. -/
def prepare (e : MdEngine) (md : FragmentedMarkdown) (item : Item) :
    FragmentedMarkdown × List (String × RowVal) × List (String × String) :=
  let t0 := prepItemText item
  let a := md.add_fragement t0
  let pr := publishRows e item item.publish a.1 [("text", orEmptyRow e t0 a.2)] (findRefs t0)
  (pr.1,
   pr.2.1 ++
     [("parents", RowVal.s (pyJoin ", " (item.parentItems.map linkHtml))),
      ("children", RowVal.s (pyJoin ", " (item.childItems.map linkHtml)))],
   pr.2.2)

/-- The reference definitions `_prepare` computes for an item, as a
function of the item alone (the fragment store plays no part in them):
the refs of the text row followed by the refs of each registered string
publish attribute.  The second argument tracks the row keys accumulated so
far (for the duplicate-attribute check). -/
def publishRefs (item : Item) : List String → List String → List (String × String)
  | [], _ => []
  | attr :: rest, keys =>
    if attr ∈ keys then publishRefs item rest keys
    else
      match dlookup item.attrs attr with
      | none => publishRefs item rest keys
      | some (.str v) =>
        if 0 < v.length then findRefs v ++ publishRefs item rest (keys ++ [attr])
        else publishRefs item rest keys
      | some (.bool _) => publishRefs item rest (keys ++ [attr])
      | some .other => publishRefs item rest keys

/-- The reference-definition set `_prepare` records for an item. -/
def refsOf (item : Item) : List (String × String) :=
  findRefs (prepItemText item) ++ publishRefs item item.publish ["text"]

/-! ## ItemRenderer._render_item -/

/-- Heading tag selection (lines 112–121): a header item's tag depth is
`str(item.level).count(".")`, otherwise a plain paragraph tag. -/
def headerTag (item : Item) : String :=
  if is_header_item item then "h" ++ Nat.repr (countDot (levelStr item)) else "p"

/-- Visible heading text: first body line for a header item, else the
item's header field. -/
def headerText (item : Item) : String :=
  if is_header_item item then (pySplitlines item.text).headD "" else item.header

/-- Python `len(val)` for a row value: string length, or the child count of
the fragment's parse root. -/
def rowValLen (e : MdEngine) (md : FragmentedMarkdown) : RowVal → Nat
  | .s v => v.length
  | .elem i => e.childCount (md.fragments.getD i "")

/-- A row value rendered for the table: strings verbatim, elements through
`render_fragment`. -/
def renderRowVal (e : MdEngine) (md : FragmentedMarkdown) : RowVal → String
  | .s v => v
  | .elem i => FragmentedMarkdown.render_fragment e md (some i)

/-- The attribute-table rows of `_render_item` (lines 126–137): empty
values are omitted; non-"text" rows get a header cell and colspan 1. -/
def rowsHtml (e : MdEngine) (md : FragmentedMarkdown) :
    List (String × RowVal) → String
  | [] => ""
  | (attr, val) :: rest =>
    (if rowValLen e md val = 0 then ""
     else
       "<tr class=\"req-table\">" ++
       (if attr = "text" then ""
        else "<th class=\"req-table\">" ++ pyCapitalize attr ++ "</th>") ++
       "<td colspan=\"" ++ (if attr = "text" then "2" else "1") ++ "\">" ++
       renderRowVal e md val ++ "</td></tr>") ++
    rowsHtml e md rest

/-- `ItemRenderer._render_item(md, item, attrs)`. -/
def render_item (e : MdEngine) (md : FragmentedMarkdown) (item : Item)
    (attrs : List (String × RowVal)) : String :=
  "<" ++ headerTag item ++ "><b>" ++ levelStr item ++ " " ++ headerText item ++
    "</b> <small>" ++ item.uid ++ "</small></" ++ headerTag item ++ ">" ++
  "<table class=\"req-table\">" ++ rowsHtml e md attrs ++ "</table>"

/-! ## ProgressTracker -/

/-- Round-half-to-even of `100 * count / total` over the exact rationals
(Python's `round(count / total * 100)`; CPython computes the quotient in
binary floating point, which agrees with the exact value at every input
appearing in this development). -/
def pyRound100 (count total : Nat) : Nat :=
  let n := 100 * count
  let q := n / total
  let r := n % total
  if 2 * r < total then q
  else if total < 2 * r then q + 1
  else if q % 2 = 0 then q else q + 1

structure ProgressTracker where
  total_count : Nat
  count : Nat
  report_interval : Nat
deriving DecidableEq, Repr

/-- `ProgressTracker(total)`: the report interval is
`max(int(self.total_count / 100), 1)` (Python truncates the float quotient,
which agrees with floor division). -/
def ProgressTracker.init (total : Nat) : ProgressTracker :=
  ⟨total, 0, max (total / 100) 1⟩

/-- `progress_one()`: increment while not above the total, report whether
the (new) count is a multiple of the report interval. -/
def ProgressTracker.progress_one (t : ProgressTracker) : ProgressTracker × Bool :=
  let t1 := if t.count ≤ t.total_count then { t with count := t.count + 1 } else t
  (t1, t1.count % t1.report_interval == 0)

/-- `get()`: percentage to completion. -/
def ProgressTracker.get (t : ProgressTracker) : Nat :=
  if t.total_count = 0 then 100 else pyRound100 t.count t.total_count

/-! ## ItemRenderer state and process -/

/-- The mutable fields of an `ItemRenderer` that survive across `process`
calls: the fragment store, the timestamp cache, the per-item
reference-definition cache, and `current_root` (initialized to `""` in
`__init__` and — notably — never assigned anywhere else in the class). -/
structure RendererState where
  md : Option FragmentedMarkdown
  cache : List (String × Int)
  prev_refs : List (String × List (String × String))
  current_root : String
deriving DecidableEq, Repr

/-- The state of a freshly constructed `ItemRenderer`. -/
def initState : RendererState := ⟨none, [], [], ""⟩

/-- The store-replacement condition of line 59:
`not self.md or root != self.current_root`. -/
def mdReplaced (st : RendererState) (root : String) : Bool :=
  !st.md.isSome || root != st.current_root

/-- The skip condition of line 68: in a partial pass, an item whose cached
timestamp equals the supplied one contributes nothing. -/
def skipB (cache : List (String × Int)) (part : Bool) (p : Item × Int) : Bool :=
  part && decide (dlookup cache p.1.uid = some p.2)

/-- Result of the preparation loop (lines 67–83): either the pass must be
aborted and restarted as a full render because some item's reference set
changed (`restart` carries the already-reset store and the progress events
emitted so far), or the loop finished (`done` carries the store, the
per-item prepared rows — `none` for skipped items — the updated reference
cache, the tracker and the progress events). -/
inductive PrepOut where
  | restart (md : FragmentedMarkdown) (events : List Nat)
  | done (md : FragmentedMarkdown) (prepared : List (Option (List (String × RowVal))))
      (prevRefs : List (String × List (String × String)))
      (tracker : ProgressTracker) (events : List Nat)

def PrepOut.isRestart : PrepOut → Bool
  | .restart _ _ => true
  | .done _ _ _ _ _ => false

/-- The first loop of `process` (lines 67–83).  `cache` is the timestamp
cache, only read here; `pr` is `self.prev_refs`, updated as items are
prepared.  On a reference-set conflict (line 72) both caches are cleared
and the store reset (lines 74–76); the recursion back into `process` is
handled by the caller. -/
def prepLoop (e : MdEngine) (part : Bool) (cache : List (String × Int)) :
    List (Item × Int) → FragmentedMarkdown →
    List (String × List (String × String)) → ProgressTracker → PrepOut
  | [], md, pr, t => .done md [] pr t []
  | p :: rest, md, pr, t =>
    if skipB cache part p then
      let tb := t.progress_one
      let evs0 := if tb.2 then [tb.1.get] else []
      match prepLoop e part cache rest md pr tb.1 with
      | .restart m evs => .restart m (evs0 ++ evs)
      | .done m prep pr2 t2 evs => .done m (none :: prep) pr2 t2 (evs0 ++ evs)
    else
      let pm := prepare e md p.1
      if (dlookup pr p.1.uid).any (fun r => decide (¬ r = pm.2.2)) then
        .restart pm.1.reset []
      else
        let pr1 := dinsert pr p.1.uid pm.2.2
        let tb := t.progress_one
        let evs0 := if tb.2 then [tb.1.get] else []
        match prepLoop e part cache rest pm.1 pr1 tb.1 with
        | .restart m evs => .restart m (evs0 ++ evs)
        | .done m prep pr2 t2 evs => .done m (some pm.2.1 :: prep) pr2 t2 (evs0 ++ evs)

/-- Result of the emission loop (lines 87–94): the yielded pairs, each with
a snapshot of the timestamp cache at the instant the generator suspends on
that yield (the cache write of line 92 runs only when the generator is
resumed), the final cache, the tracker and the progress events. -/
structure EmitOut where
  trace : List ((String × String) × List (String × Int))
  cache : List (String × Int)
  tracker : ProgressTracker
  events : List Nat

/-- The second loop of `process` (lines 87–94): render and yield every
prepared item, then update its timestamp cache entry. -/
def emitLoop (e : MdEngine) (md : FragmentedMarkdown) :
    List ((Item × Int) × Option (List (String × RowVal))) →
    List (String × Int) → ProgressTracker → EmitOut
  | [], c, t => ⟨[], c, t, []⟩
  | q :: rest, c, t =>
    match q.2 with
    | some rows =>
      let out := (q.1.1.uid, render_item e md q.1.1 rows)
      let c1 := dinsert c q.1.1.uid q.1.2
      let tb := t.progress_one
      let eo := emitLoop e md rest c1 tb.1
      ⟨(out, c) :: eo.trace, eo.cache, eo.tracker,
        (if tb.2 then [tb.1.get] else []) ++ eo.events⟩
    | none =>
      let tb := t.progress_one
      let eo := emitLoop e md rest c tb.1
      ⟨eo.trace, eo.cache, eo.tracker, (if tb.2 then [tb.1.get] else []) ++ eo.events⟩

/-- The result of one `process` call: the yielded pairs with their
suspension-point cache snapshots, the progress events, the renderer state
after the call, whether the reference-change restart was taken, and whether
the call would recurse forever in Python (see the module comment). -/
structure RunResult where
  trace : List ((String × String) × List (String × Int))
  events : List Nat
  state : RendererState
  restarted : Bool
  diverged : Bool
deriving Repr

/-- The `(item_id, html)` pairs yielded by the call, in order. -/
def RunResult.outputs (r : RunResult) : List (String × String) :=
  r.trace.map Prod.fst

/-- Lines 85–100 after a completed preparation loop: tree-process the
fragments, emit, yield the footer on a full pass, and report the final
progress value (the `progress_one` of line 99 plus the unconditional
callback of line 100). -/
def finishPass (e : MdEngine) (items : List (Item × Int)) (cr : String) (part : Bool)
    (c1 : List (String × Int)) (md2 : FragmentedMarkdown)
    (prep : List (Option (List (String × RowVal))))
    (pr2 : List (String × List (String × String)))
    (t2 : ProgressTracker) (evs1 : List Nat) : RunResult :=
  let md3 := md2.process_fragments
  let eo := emitLoop e md3 (items.zip prep) c1 t2
  { trace :=
      if part then eo.trace
      else eo.trace ++ [(("footer", FragmentedMarkdown.render_footer e md3), eo.cache)]
    events := evs1 ++ eo.events ++ [((eo.tracker.progress_one).1).get]
    state := ⟨some md3, eo.cache, pr2, cr⟩
    restarted := false
    diverged := false }

/-- One pass of `ItemRenderer.process` with an explicit restart budget
(`fuel`).  On a reference-set conflict the code clears both caches, resets
the store and re-enters `process` with `partial=False` (lines 74–78); the
re-entered call replaces the store when `root` differs from the (never
updated) `current_root` and resets it again.  With `fuel = 0` a conflict
marks the run as diverged: in Python the identical cleared full pass would
request the same restart again, recursing until `RecursionError` (caught by
the `except` clause, so the generator just ends with no yields). -/
def runPassN (e : MdEngine) (root : String) (items : List (Item × Int)) (cr : String) :
    Nat → Bool → FragmentedMarkdown → List (String × Int) →
    List (String × List (String × String)) → RunResult
  | 0, part, md1, c1, p1 =>
    match prepLoop e part c1 items md1 p1 (ProgressTracker.init (items.length * 2)) with
    | .done md2 prep pr2 t2 evs1 => finishPass e items cr part c1 md2 prep pr2 t2 evs1
    | .restart mdR evs =>
      { trace := [], events := evs, state := ⟨some mdR, [], [], cr⟩,
        restarted := true, diverged := true }
  | fuel + 1, part, md1, c1, p1 =>
    match prepLoop e part c1 items md1 p1 (ProgressTracker.init (items.length * 2)) with
    | .done md2 prep pr2 t2 evs1 => finishPass e items cr part c1 md2 prep pr2 t2 evs1
    | .restart mdR evs =>
      let md0r := if root != cr then FragmentedMarkdown.init root else mdR
      let r := runPassN e root items cr fuel false md0r.reset [] []
      { r with events := evs ++ r.events, restarted := true }

/-- `ItemRenderer.process(root, partial, items)` (lines 55–102), as a pure
function of the renderer state.  Lines 59–60 replace the store exactly when
`mdReplaced`; a full pass additionally clears both caches and resets the
store (`_reset_state`, lines 62–63/104–108).  `current_root` is passed
through unchanged, exactly as in the source.  The restart budget `1`
captures every terminating Python execution (see `runPassN`). -/
def process (e : MdEngine) (st : RendererState) (root : String) (part : Bool)
    (items : List (Item × Int)) : RunResult :=
  let md0 := if mdReplaced st root then FragmentedMarkdown.init root
             else st.md.getD (FragmentedMarkdown.init root)
  if part then runPassN e root items st.current_root 1 true md0 st.cache st.prev_refs
  else runPassN e root items st.current_root 1 false md0.reset [] []

/-! ## A concrete markdown engine and concrete items, used as witnesses -/

/-- A trivial concrete instance of the external conversion pipeline: every
parse root has one child, a fragment renders to its source, the footer is
empty.  Used to evaluate the model on concrete inputs. -/
def trivEngine : MdEngine :=
  { childCount := fun _ => 1
    renderAt := fun _ srcs i => srcs.getD i ""
    footerHtml := fun _ _ => "" }

/-- Item `A`, declaring the reference definition `[r]: x`. -/
def itemA0 : Item :=
  { uid := "A", levelParts := [1], levelHeading := false, normative := true,
    text := "[r]: x", header := "a", publish := [], attrs := [],
    parentItems := [], childItems := [] }

/-- Item `A` after an edit that redefines the reference as `[r]: y`. -/
def itemA1 : Item := { itemA0 with text := "[r]: y" }

/-- Item `B`, declaring no reference definitions. -/
def itemB : Item :=
  { uid := "B", levelParts := [2], levelHeading := false, normative := true,
    text := "b", header := "b", publish := [], attrs := [],
    parentItems := [], childItems := [] }

/-- A header item whose raw level is `1.0.0` (doorstop-normalized). -/
def itemH : Item :=
  { uid := "H", levelParts := (levelOfRaw [1, 0, 0]).1,
    levelHeading := (levelOfRaw [1, 0, 0]).2, normative := false,
    text := "Intro\nbody", header := "", publish := [], attrs := [],
    parentItems := [], childItems := [] }

/-- Two entries sharing the uid `D` but declaring different reference
definitions. -/
def dupItems : List (Item × Int) :=
  [({ itemA0 with uid := "D" }, 1), ({ itemA1 with uid := "D" }, 2)]

/-! ## Derived notions used in the claim statements -/

/-- Apply a list of timestamp-cache writes in order. -/
def dinsertList (c : List (String × Int)) (ws : List (String × Int)) :
    List (String × Int) :=
  ws.foldl (fun acc w => dinsert acc w.1 w.2) c

/-- An entry of a partial request that triggers the reference-change
restart: it is re-prepared (not timestamp-skipped) and its newly computed
reference-definition set differs from the set previously recorded for its
uid. -/
def qualifiesB (cache : List (String × Int))
    (pr0 : List (String × List (String × String))) (p : Item × Int) : Bool :=
  !skipB cache true p &&
    (dlookup pr0 p.1.uid).any fun r => decide (¬ r = refsOf p.1)

/-- The timestamp cache the executed (final) pass of a call starts from:
the caller's cache for a partial pass that did not restart, the empty cache
otherwise. -/
def passBaseB (st : RendererState) (part restarted : Bool) : List (String × Int) :=
  if part && !restarted then st.cache else []

/-- The cache writes the executed pass performs, in emission order: one
`(uid, ts)` per non-skipped entry of a partial pass that did not restart,
one per entry otherwise (a full pass skips nothing). -/
def passWritesB (st : RendererState) (part restarted : Bool)
    (items : List (Item × Int)) : List (String × Int) :=
  if part && !restarted then
    items.filterMap fun p => if skipB st.cache true p then none else some (p.1.uid, p.2)
  else items.map fun p => (p.1.uid, p.2)

/-- The `(uid, ts)` writes the emission loop performs for a zipped
prepared-item list. -/
def emitWrites (l : List ((Item × Int) × Option (List (String × RowVal)))) :
    List (String × Int) :=
  l.filterMap fun q => if q.2.isSome then some (q.1.1.uid, q.1.2) else none

/-! ## The exception-aware body of `process`

Lines 58–102 wrap the whole generator body in
`try: ... except Exception as e: logger.error(...)`.  To reason about this
the body is embedded a second time with explicit exception points: the
external pipeline may raise while an item is prepared (preprocessors/block
parser inside `_prepare`), while an item is rendered (serializer inside
`_render_item`), or while the footer is rendered.  An `ExnOracle` fixes, as
a pure function of the item, whether each such call raises.  A raised
exception propagates to the `except` clause of the `process` invocation
whose frame it unwinds; an exception inside the recursive restarted call is
caught by that call's own `except` clause, so the outer call just sees its
generator end. -/

/-- A Python exception (any `Exception` subclass). -/
structure PyExn where
  msg : String
deriving DecidableEq, Repr

/-- Which external pipeline calls raise, as a function of the item. -/
structure ExnOracle where
  prepExn : Item → Option PyExn
  renderExn : Item → Option PyExn
  footerExn : Option PyExn

/-- Preparation-loop result with exception points. -/
inductive PrepOutE where
  | restart (md : FragmentedMarkdown) (events : List Nat)
  | fail (pe : PyExn) (md : FragmentedMarkdown)
      (prevRefs : List (String × List (String × String))) (events : List Nat)
  | done (md : FragmentedMarkdown) (prepared : List (Option (List (String × RowVal))))
      (prevRefs : List (String × List (String × String)))
      (tracker : ProgressTracker) (events : List Nat)

/-- The first loop of `process` with exception points: `_prepare` may raise
before the item is recorded. -/
def prepLoopE (o : ExnOracle) (e : MdEngine) (part : Bool)
    (cache : List (String × Int)) :
    List (Item × Int) → FragmentedMarkdown →
    List (String × List (String × String)) → ProgressTracker → PrepOutE
  | [], md, pr, t => .done md [] pr t []
  | p :: rest, md, pr, t =>
    if skipB cache part p then
      let tb := t.progress_one
      let evs0 := if tb.2 then [tb.1.get] else []
      match prepLoopE o e part cache rest md pr tb.1 with
      | .restart m evs => .restart m (evs0 ++ evs)
      | .fail pe m pr2 evs => .fail pe m pr2 (evs0 ++ evs)
      | .done m prep pr2 t2 evs => .done m (none :: prep) pr2 t2 (evs0 ++ evs)
    else
      match o.prepExn p.1 with
      | some pe => .fail pe md pr []
      | none =>
        let pm := prepare e md p.1
        if (dlookup pr p.1.uid).any (fun r => decide (¬ r = pm.2.2)) then
          .restart pm.1.reset []
        else
          let pr1 := dinsert pr p.1.uid pm.2.2
          let tb := t.progress_one
          let evs0 := if tb.2 then [tb.1.get] else []
          match prepLoopE o e part cache rest pm.1 pr1 tb.1 with
          | .restart m evs => .restart m (evs0 ++ evs)
          | .fail pe m pr2 evs => .fail pe m pr2 (evs0 ++ evs)
          | .done m prep pr2 t2 evs => .done m (some pm.2.1 :: prep) pr2 t2 (evs0 ++ evs)

/-- Emission-loop result with exception points. -/
structure EmitOutE where
  outputs : List (String × String)
  cache : List (String × Int)
  tracker : ProgressTracker
  events : List Nat
  exn : Option PyExn

/-- The second loop of `process` with exception points: `_render_item` may
raise before the item is yielded; the cache write of line 92 runs after the
yield and before anything that can raise, so at a raise every yielded item
has been written. -/
def emitLoopE (o : ExnOracle) (e : MdEngine) (md : FragmentedMarkdown) :
    List ((Item × Int) × Option (List (String × RowVal))) →
    List (String × Int) → ProgressTracker → EmitOutE
  | [], c, t => ⟨[], c, t, [], none⟩
  | q :: rest, c, t =>
    match q.2 with
    | some rows =>
      match o.renderExn q.1.1 with
      | some pe => ⟨[], c, t, [], some pe⟩
      | none =>
        let out := (q.1.1.uid, render_item e md q.1.1 rows)
        let c1 := dinsert c q.1.1.uid q.1.2
        let tb := t.progress_one
        let eo := emitLoopE o e md rest c1 tb.1
        ⟨out :: eo.outputs, eo.cache, eo.tracker,
          (if tb.2 then [tb.1.get] else []) ++ eo.events, eo.exn⟩
    | none =>
      let tb := t.progress_one
      let eo := emitLoopE o e md rest c tb.1
      ⟨eo.outputs, eo.cache, eo.tracker,
        (if tb.2 then [tb.1.get] else []) ++ eo.events, eo.exn⟩

/-- Result of the exception-aware body: the yields delivered to the
consumer, the progress events, the renderer state when the body stopped,
the restart flag, the divergence marker, and the exception (if any) that
reached this invocation's `except` clause. -/
structure RunResultE where
  outputs : List (String × String)
  events : List Nat
  state : RendererState
  restarted : Bool
  diverged : Bool
  exn : Option PyExn
deriving Repr

/-- One pass of the body with exception points and a restart budget. -/
def bodyPassN (o : ExnOracle) (e : MdEngine) (root : String)
    (items : List (Item × Int)) (cr : String) :
    Nat → Bool → FragmentedMarkdown → List (String × Int) →
    List (String × List (String × String)) → RunResultE
  | fuel, part, md1, c1, p1 =>
    match prepLoopE o e part c1 items md1 p1 (ProgressTracker.init (items.length * 2)) with
    | .fail pe md pr evs =>
      { outputs := [], events := evs, state := ⟨some md, c1, pr, cr⟩,
        restarted := false, diverged := false, exn := some pe }
    | .restart mdR evs =>
      match fuel with
      | 0 =>
        { outputs := [], events := evs, state := ⟨some mdR, [], [], cr⟩,
          restarted := true, diverged := true, exn := none }
      | fuel2 + 1 =>
        let md0r := if root != cr then FragmentedMarkdown.init root else mdR
        let r := bodyPassN o e root items cr fuel2 false md0r.reset [] []
        { r with events := evs ++ r.events, restarted := true, exn := none }
    | .done md2 prep pr2 t2 evs1 =>
      let md3 := md2.process_fragments
      let eo := emitLoopE o e md3 (items.zip prep) c1 t2
      match eo.exn with
      | some pe =>
        { outputs := eo.outputs, events := evs1 ++ eo.events,
          state := ⟨some md3, eo.cache, pr2, cr⟩,
          restarted := false, diverged := false, exn := some pe }
      | none =>
        if part then
          { outputs := eo.outputs,
            events := evs1 ++ eo.events ++ [((eo.tracker.progress_one).1).get],
            state := ⟨some md3, eo.cache, pr2, cr⟩,
            restarted := false, diverged := false, exn := none }
        else
          match o.footerExn with
          | some pe =>
            { outputs := eo.outputs, events := evs1 ++ eo.events,
              state := ⟨some md3, eo.cache, pr2, cr⟩,
              restarted := false, diverged := false, exn := some pe }
          | none =>
            { outputs := eo.outputs ++ [("footer", FragmentedMarkdown.render_footer e md3)],
              events := evs1 ++ eo.events ++ [((eo.tracker.progress_one).1).get],
              state := ⟨some md3, eo.cache, pr2, cr⟩,
              restarted := false, diverged := false, exn := none }

/-- The body of one `process` call (the contents of the `try` block, lines
58–100), with exception points.  `exn` is the exception, if any, that this
invocation's `except Exception` clause receives. -/
def bodyE (o : ExnOracle) (e : MdEngine) (st : RendererState) (root : String)
    (part : Bool) (items : List (Item × Int)) : RunResultE :=
  let md0 := if mdReplaced st root then FragmentedMarkdown.init root
             else st.md.getD (FragmentedMarkdown.init root)
  if part then bodyPassN o e root items st.current_root 1 true md0 st.cache st.prev_refs
  else bodyPassN o e root items st.current_root 1 false md0.reset [] []

/-- `process` with exception points: the `except Exception` clause of lines
101–102 catches whatever the body raised, logs it, and lets the generator
end; nothing propagates to the caller. -/
def processE (o : ExnOracle) (e : MdEngine) (st : RendererState) (root : String)
    (part : Bool) (items : List (Item × Int)) : RunResultE :=
  let r := bodyE o e st root part items
  match r.exn with
  | some _ => { r with exn := none }
  | none => r

/-! ## Dictionary lemmas -/

theorem dlookup_dinsert_self {α : Type} (l : List (String × α)) (k : String) (v : α) :
    dlookup (dinsert l k v) k = some v := by
  induction l with
  | nil => simp [dinsert, dlookup]
  | cons p rest ih =>
    by_cases h : p.1 = k
    · simp [dinsert, dlookup, h]
    · simp [dinsert, dlookup, h, ih]

theorem dlookup_dinsert_ne {α : Type} (l : List (String × α)) (k k' : String) (v : α)
    (h : k' ≠ k) : dlookup (dinsert l k v) k' = dlookup l k' := by
  have h2 : ¬ k = k' := fun hh => h hh.symm
  induction l with
  | nil => simp [dinsert, dlookup, h2]
  | cons p rest ih =>
    by_cases hp : p.1 = k
    · simp [dinsert, dlookup, hp, h2]
    · by_cases hp' : p.1 = k'
      · simp [dinsert, dlookup, hp, hp', h]
      · simp [dinsert, dlookup, hp, hp', ih]

/-! ## Projections of `_prepare` -/

theorem add_fragement_basedir (m : FragmentedMarkdown) (s : String) :
    (m.add_fragement s).1.base_dir = m.base_dir := by
  unfold FragmentedMarkdown.add_fragement
  split <;> rfl

theorem publishRows_refs (e : MdEngine) (item : Item) :
    ∀ (l : List String) (md : FragmentedMarkdown) (rows : List (String × RowVal))
      (refs : List (String × String)),
      (publishRows e item l md rows refs).2.2
        = refs ++ publishRefs item l (rows.map Prod.fst)
  | [], md, rows, refs => by simp [publishRows, publishRefs]
  | attr :: rest, md, rows, refs => by
    simp only [publishRows, publishRefs]
    by_cases h : attr ∈ rows.map Prod.fst
    · simp only [if_pos h]
      exact publishRows_refs e item rest md rows refs
    · simp only [if_neg h]
      cases hv : dlookup item.attrs attr with
      | none => exact publishRows_refs e item rest md rows refs
      | some av =>
        cases av with
        | str v =>
          by_cases hl : 0 < v.length
          · simp only [if_pos hl]
            rw [publishRows_refs e item rest]
            simp [List.map_append, List.append_assoc]
          · simp only [if_neg hl]
            exact publishRows_refs e item rest md rows refs
        | bool b =>
          rw [publishRows_refs e item rest]
          simp [List.map_append]
        | other => exact publishRows_refs e item rest md rows refs

theorem publishRows_basedir (e : MdEngine) (item : Item) :
    ∀ (l : List String) (md : FragmentedMarkdown) (rows : List (String × RowVal))
      (refs : List (String × String)),
      (publishRows e item l md rows refs).1.base_dir = md.base_dir
  | [], md, rows, refs => by simp [publishRows]
  | attr :: rest, md, rows, refs => by
    simp only [publishRows]
    by_cases h : attr ∈ rows.map Prod.fst
    · simp only [if_pos h]
      exact publishRows_basedir e item rest md rows refs
    · simp only [if_neg h]
      cases hv : dlookup item.attrs attr with
      | none => exact publishRows_basedir e item rest md rows refs
      | some av =>
        cases av with
        | str v =>
          by_cases hl : 0 < v.length
          · simp only [if_pos hl]
            rw [publishRows_basedir e item rest, add_fragement_basedir]
          · simp only [if_neg hl]
            exact publishRows_basedir e item rest md rows refs
        | bool b => exact publishRows_basedir e item rest md _ refs
        | other => exact publishRows_basedir e item rest md rows refs

/-- The reference list `_prepare` returns is a function of the item alone. -/
theorem prepare_refs (e : MdEngine) (md : FragmentedMarkdown) (item : Item) :
    (prepare e md item).2.2 = refsOf item := by
  unfold prepare refsOf
  rw [publishRows_refs]
  simp

theorem prepare_basedir (e : MdEngine) (md : FragmentedMarkdown) (item : Item) :
    (prepare e md item).1.base_dir = md.base_dir := by
  unfold prepare
  rw [publishRows_basedir, add_fragement_basedir]

/-! ## Preparation-loop lemmas -/

/-- A completed preparation loop prepares exactly the non-skipped items. -/
theorem prepLoop_done_isSome (e : MdEngine) (part : Bool) (cache : List (String × Int)) :
    ∀ (items : List (Item × Int)) (md : FragmentedMarkdown)
      (pr : List (String × List (String × String))) (t : ProgressTracker)
      {md2 prep pr2 t2 evs},
      prepLoop e part cache items md pr t = .done md2 prep pr2 t2 evs →
      prep.map Option.isSome = items.map fun p => !skipB cache part p := by
  intro items
  induction items with
  | nil =>
    intro md pr t md2 prep pr2 t2 evs h
    simp only [prepLoop] at h
    cases h
    simp
  | cons p rest ih =>
    intro md pr t md2 prep pr2 t2 evs h
    by_cases hs : skipB cache part p
    · simp only [prepLoop, hs, if_true] at h
      cases hrec : prepLoop e part cache rest md pr (t.progress_one).1 <;> rw [hrec] at h
      · cases h
      · cases h
        simp [hs, ih _ _ _ hrec]
    · simp only [prepLoop, hs, if_false] at h
      by_cases hc : (dlookup pr p.1.uid).any fun r => decide (¬ r = (prepare e md p.1).2.2)
      · rw [if_pos hc] at h
        cases h
      · rw [if_neg hc] at h
        cases hrec : prepLoop e part cache rest (prepare e md p.1).1
            (dinsert pr p.1.uid (prepare e md p.1).2.2) (t.progress_one).1 <;> rw [hrec] at h
        · cases h
        · cases h
          simp [hs, ih _ _ _ hrec]

theorem prepLoop_done_basedir (e : MdEngine) (part : Bool) (cache : List (String × Int)) :
    ∀ (items : List (Item × Int)) (md : FragmentedMarkdown)
      (pr : List (String × List (String × String))) (t : ProgressTracker)
      {md2 prep pr2 t2 evs},
      prepLoop e part cache items md pr t = .done md2 prep pr2 t2 evs →
      md2.base_dir = md.base_dir := by
  intro items
  induction items with
  | nil =>
    intro md pr t md2 prep pr2 t2 evs h
    simp only [prepLoop] at h
    cases h
    rfl
  | cons p rest ih =>
    intro md pr t md2 prep pr2 t2 evs h
    by_cases hs : skipB cache part p
    · simp only [prepLoop, hs, if_true] at h
      cases hrec : prepLoop e part cache rest md pr (t.progress_one).1 <;> rw [hrec] at h
      · cases h
      · cases h
        exact ih _ _ _ hrec
    · simp only [prepLoop, hs, if_false] at h
      by_cases hc : (dlookup pr p.1.uid).any fun r => decide (¬ r = (prepare e md p.1).2.2)
      · rw [if_pos hc] at h
        cases h
      · rw [if_neg hc] at h
        cases hrec : prepLoop e part cache rest (prepare e md p.1).1
            (dinsert pr p.1.uid (prepare e md p.1).2.2) (t.progress_one).1 <;> rw [hrec] at h
        · cases h
        · cases h
          rw [ih _ _ _ hrec, prepare_basedir]

theorem prepLoop_restart_basedir (e : MdEngine) (part : Bool) (cache : List (String × Int)) :
    ∀ (items : List (Item × Int)) (md : FragmentedMarkdown)
      (pr : List (String × List (String × String))) (t : ProgressTracker)
      {mdR evs},
      prepLoop e part cache items md pr t = .restart mdR evs →
      mdR.base_dir = md.base_dir := by
  intro items
  induction items with
  | nil =>
    intro md pr t mdR evs h
    simp only [prepLoop] at h
    cases h
  | cons p rest ih =>
    intro md pr t mdR evs h
    by_cases hs : skipB cache part p
    · simp only [prepLoop, hs, if_true] at h
      cases hrec : prepLoop e part cache rest md pr (t.progress_one).1 <;> rw [hrec] at h
      · cases h
        exact ih _ _ _ hrec
      · cases h
    · simp only [prepLoop, hs, if_false] at h
      by_cases hc : (dlookup pr p.1.uid).any fun r => decide (¬ r = (prepare e md p.1).2.2)
      · rw [if_pos hc] at h
        cases h
        rw [show (prepare e md p.1).1.reset.base_dir = (prepare e md p.1).1.base_dir from rfl,
          prepare_basedir]
      · rw [if_neg hc] at h
        cases hrec : prepLoop e part cache rest (prepare e md p.1).1
            (dinsert pr p.1.uid (prepare e md p.1).2.2) (t.progress_one).1 <;> rw [hrec] at h
        · cases h
          rw [ih _ _ _ hrec, prepare_basedir]
        · cases h

/-- A preparation loop whose starting reference cache already agrees with
the items (every recorded entry for an upcoming uid equals that item's
reference set, and entries sharing a uid compute equal reference sets)
never requests a restart.  In particular a pass started right after the
caches were cleared (`pr = []`) never restarts when no uid recurs with a
different reference set. -/
theorem prepLoop_no_restart (e : MdEngine) (part : Bool) (cache : List (String × Int)) :
    ∀ (items : List (Item × Int)) (md : FragmentedMarkdown)
      (pr : List (String × List (String × String))) (t : ProgressTracker),
      (∀ p ∈ items, ∀ r, dlookup pr p.1.uid = some r → r = refsOf p.1) →
      (∀ p ∈ items, ∀ q ∈ items, p.1.uid = q.1.uid → refsOf p.1 = refsOf q.1) →
      (prepLoop e part cache items md pr t).isRestart = false := by
  intro items
  induction items with
  | nil =>
    intro md pr t _ _
    simp [prepLoop, PrepOut.isRestart]
  | cons p rest ih =>
    intro md pr t hpr hsame
    by_cases hs : skipB cache part p
    · have hstep : (prepLoop e part cache (p :: rest) md pr t).isRestart
          = (prepLoop e part cache rest md pr (t.progress_one).1).isRestart := by
        cases hrec : prepLoop e part cache rest md pr (t.progress_one).1 <;>
          simp [prepLoop, hs, hrec, PrepOut.isRestart]
      rw [hstep]
      exact ih md pr (t.progress_one).1
        (fun q hq r hr => hpr q (List.mem_cons_of_mem _ hq) r hr)
        (fun a ha b hb hab =>
          hsame a (List.mem_cons_of_mem _ ha) b (List.mem_cons_of_mem _ hb) hab)
    · have hrefs : (prepare e md p.1).2.2 = refsOf p.1 := prepare_refs e md p.1
      have hstep : (prepLoop e part cache (p :: rest) md pr t).isRestart
          = (prepLoop e part cache rest (prepare e md p.1).1
              (dinsert pr p.1.uid (prepare e md p.1).2.2) (t.progress_one).1).isRestart := by
        cases hl : dlookup pr p.1.uid with
        | none =>
          have hcond : ((dlookup pr p.1.uid).any fun x => !decide (x = (prepare e md p.1).2.2)) = false := by
            rw [hl]
            rfl
          cases hrec : prepLoop e part cache rest (prepare e md p.1).1
              (dinsert pr p.1.uid (prepare e md p.1).2.2) (t.progress_one).1 <;>
            simp [prepLoop, hs, hcond, hrec, PrepOut.isRestart]
        | some r =>
          have hr : r = refsOf p.1 := hpr p (List.mem_cons_self _ _) r hl
          have hcond : ((dlookup pr p.1.uid).any fun x => !decide (x = (prepare e md p.1).2.2)) = false := by
            rw [hl, hrefs]
            simp [hr]
          cases hrec : prepLoop e part cache rest (prepare e md p.1).1
              (dinsert pr p.1.uid (prepare e md p.1).2.2) (t.progress_one).1 <;>
            simp [prepLoop, hs, hcond, hrec, PrepOut.isRestart]
      rw [hstep]
      exact ih (prepare e md p.1).1 (dinsert pr p.1.uid (prepare e md p.1).2.2)
          (t.progress_one).1
        (by
          intro q hq r hr
          by_cases hu : q.1.uid = p.1.uid
          · rw [hu, dlookup_dinsert_self] at hr
            cases hr
            rw [hrefs]
            exact hsame p (List.mem_cons_self _ _) q (List.mem_cons_of_mem _ hq) hu.symm
          · rw [dlookup_dinsert_ne _ _ _ _ hu] at hr
            exact hpr q (List.mem_cons_of_mem _ hq) r hr)
        (fun a ha b hb hab =>
          hsame a (List.mem_cons_of_mem _ ha) b (List.mem_cons_of_mem _ hb) hab)

/-- For a partial pass over items with pairwise distinct uids, the
preparation loop requests a restart exactly when some entry is re-prepared
with a reference set different from the one previously recorded for its
uid. -/
theorem prepLoop_restart_iff (e : MdEngine) (cache : List (String × Int))
    (pr0 : List (String × List (String × String))) :
    ∀ (items : List (Item × Int)) (md : FragmentedMarkdown)
      (pr : List (String × List (String × String))) (t : ProgressTracker),
      (items.map fun p => p.1.uid).Nodup →
      (∀ p ∈ items, dlookup pr p.1.uid = dlookup pr0 p.1.uid) →
      ((prepLoop e true cache items md pr t).isRestart = true ↔
        ∃ p ∈ items, qualifiesB cache pr0 p = true) := by
  intro items
  induction items with
  | nil =>
    intro md pr t _ _
    simp [prepLoop, PrepOut.isRestart]
  | cons p rest ih =>
    intro md pr t hnd hinv
    have hndr : (rest.map fun p => p.1.uid).Nodup := (List.nodup_cons.mp hnd).2
    have hnin : p.1.uid ∉ rest.map fun q => q.1.uid := (List.nodup_cons.mp hnd).1
    by_cases hs : skipB cache true p
    · have hq : qualifiesB cache pr0 p = false := by
        simp [qualifiesB, hs]
      have hstep : (prepLoop e true cache (p :: rest) md pr t).isRestart
          = (prepLoop e true cache rest md pr (t.progress_one).1).isRestart := by
        cases hrec : prepLoop e true cache rest md pr (t.progress_one).1 <;>
          simp [prepLoop, hs, hrec, PrepOut.isRestart]
      rw [hstep, ih md pr (t.progress_one).1 hndr
        (fun q hq => hinv q (List.mem_cons_of_mem _ hq))]
      simp [List.mem_cons, hq]
    · have hrefs : (prepare e md p.1).2.2 = refsOf p.1 := prepare_refs e md p.1
      have hl0 : dlookup pr0 p.1.uid = dlookup pr p.1.uid :=
        (hinv p (List.mem_cons_self _ _)).symm
      cases hl : dlookup pr p.1.uid with
      | none =>
        have hq : qualifiesB cache pr0 p = false := by
          simp [qualifiesB, hl0, hl]
        have hcond : ((dlookup pr p.1.uid).any fun x => !decide (x = (prepare e md p.1).2.2)) = false := by
          rw [hl]
          rfl
        have hstep : (prepLoop e true cache (p :: rest) md pr t).isRestart
            = (prepLoop e true cache rest (prepare e md p.1).1
                (dinsert pr p.1.uid (prepare e md p.1).2.2) (t.progress_one).1).isRestart := by
          cases hrec : prepLoop e true cache rest (prepare e md p.1).1
              (dinsert pr p.1.uid (prepare e md p.1).2.2) (t.progress_one).1 <;>
            simp [prepLoop, hs, hcond, hrec, PrepOut.isRestart]
        rw [hstep, ih (prepare e md p.1).1 (dinsert pr p.1.uid (prepare e md p.1).2.2)
            (t.progress_one).1 hndr
          (by
            intro q hq2
            have hu : q.1.uid ≠ p.1.uid := by
              intro hu
              exact hnin (hu ▸ List.mem_map_of_mem (fun z => z.1.uid) hq2)
            rw [dlookup_dinsert_ne _ _ _ _ hu]
            exact hinv q (List.mem_cons_of_mem _ hq2))]
        constructor
        · rintro ⟨x, hx, hqx⟩
          exact ⟨x, List.mem_cons_of_mem _ hx, hqx⟩
        · rintro ⟨x, hx, hqx⟩
          rcases List.mem_cons.mp hx with hx2 | hx2
          · rw [hx2] at hqx
            rw [hq] at hqx
            cases hqx
          · exact ⟨x, hx2, hqx⟩
      | some r =>
        by_cases hrr : r = refsOf p.1
        · have hq : qualifiesB cache pr0 p = false := by
            simp [qualifiesB, hl0, hl, hrr]
          have hcond : ((dlookup pr p.1.uid).any fun x => !decide (x = (prepare e md p.1).2.2)) = false := by
            rw [hl, hrefs]
            simp [hrr]
          have hstep : (prepLoop e true cache (p :: rest) md pr t).isRestart
              = (prepLoop e true cache rest (prepare e md p.1).1
                  (dinsert pr p.1.uid (prepare e md p.1).2.2) (t.progress_one).1).isRestart := by
            cases hrec : prepLoop e true cache rest (prepare e md p.1).1
                (dinsert pr p.1.uid (prepare e md p.1).2.2) (t.progress_one).1 <;>
              simp [prepLoop, hs, hcond, hrec, PrepOut.isRestart]
          rw [hstep, ih (prepare e md p.1).1 (dinsert pr p.1.uid (prepare e md p.1).2.2)
              (t.progress_one).1 hndr
            (by
              intro q hq2
              have hu : q.1.uid ≠ p.1.uid := by
                intro hu
                exact hnin (hu ▸ List.mem_map_of_mem (fun z => z.1.uid) hq2)
              rw [dlookup_dinsert_ne _ _ _ _ hu]
              exact hinv q (List.mem_cons_of_mem _ hq2))]
          constructor
          · rintro ⟨x, hx, hqx⟩
            exact ⟨x, List.mem_cons_of_mem _ hx, hqx⟩
          · rintro ⟨x, hx, hqx⟩
            rcases List.mem_cons.mp hx with hx2 | hx2
            · rw [hx2] at hqx
              rw [hq] at hqx
              cases hqx
            · exact ⟨x, hx2, hqx⟩
        · have hcond : ((dlookup pr p.1.uid).any fun x => !decide (x = (prepare e md p.1).2.2)) = true := by
            rw [hl, hrefs]
            simp [hrr]
          have hrestart : (prepLoop e true cache (p :: rest) md pr t).isRestart = true := by
            simp [prepLoop, hs, hcond, PrepOut.isRestart]
          rw [hrestart]
          have hqp : qualifiesB cache pr0 p = true := by
            simp [qualifiesB, hs, hl0, hl, hrr]
          exact ⟨fun _ => ⟨p, List.mem_cons_self _ _, hqp⟩, fun _ => rfl⟩

/-! ## Emission-loop lemmas -/

theorem emitLoop_trace_fst (e : MdEngine) (md : FragmentedMarkdown) :
    ∀ (l : List ((Item × Int) × Option (List (String × RowVal))))
      (c : List (String × Int)) (t : ProgressTracker),
      (emitLoop e md l c t).trace.map (fun x => x.1.1)
        = l.filterMap fun q => if q.2.isSome then some q.1.1.uid else none := by
  intro l
  induction l with
  | nil => intro c t; simp [emitLoop]
  | cons q rest ih =>
    intro c t
    cases hq : q.2 with
    | some rows => simp [emitLoop, hq, ih]
    | none => simp [emitLoop, hq, ih]

theorem dinsertList_cons (c : List (String × Int)) (w : String × Int)
    (ws : List (String × Int)) :
    dinsertList c (w :: ws) = dinsertList (dinsert c w.1 w.2) ws := rfl

/-- At the suspension point of the `k`-th yield, the cache holds the
starting cache plus the writes of the first `k` yields only (the `k`-th
item's own write has not run yet). -/
theorem emitLoop_trace_snd (e : MdEngine) (md : FragmentedMarkdown) :
    ∀ (l : List ((Item × Int) × Option (List (String × RowVal))))
      (c : List (String × Int)) (t : ProgressTracker) (k : Nat)
      {x : (String × String) × List (String × Int)},
      (emitLoop e md l c t).trace.get? k = some x →
      x.2 = dinsertList c ((emitWrites l).take k) := by
  intro l
  induction l with
  | nil => intro c t k x h; simp [emitLoop] at h
  | cons q rest ih =>
    intro c t k x h
    cases hq : q.2 with
    | some rows =>
      simp only [emitLoop, hq] at h
      cases k with
      | zero =>
        simp only [List.get?] at h
        cases h
        simp [emitWrites, dinsertList]
      | succ k2 =>
        simp only [List.get?] at h
        rw [ih _ _ _ h]
        simp [emitWrites, hq, dinsertList_cons]
    | none =>
      simp only [emitLoop, hq] at h
      rw [ih _ _ _ h]
      simp [emitWrites, hq]

/-- After the emission loop completes, the cache holds every write, and the
number of yields equals the number of writes. -/
theorem emitLoop_final (e : MdEngine) (md : FragmentedMarkdown) :
    ∀ (l : List ((Item × Int) × Option (List (String × RowVal))))
      (c : List (String × Int)) (t : ProgressTracker),
      (emitLoop e md l c t).cache = dinsertList c (emitWrites l) ∧
      (emitLoop e md l c t).trace.length = (emitWrites l).length := by
  intro l
  induction l with
  | nil => intro c t; simp [emitLoop, emitWrites, dinsertList]
  | cons q rest ih =>
    intro c t
    cases hq : q.2 with
    | some rows =>
      simp only [emitLoop, hq]
      constructor
      · rw [(ih _ _).1]
        simp [emitWrites, hq, dinsertList_cons]
      · simp [emitWrites, hq, (ih _ _).2]
    | none =>
      simp only [emitLoop, hq]
      constructor
      · rw [(ih _ _).1]
        simp [emitWrites, hq]
      · simp [emitWrites, hq, (ih _ _).2]

/-- Transfer a filterMap over zipped prepared items to a filterMap over the
items, given the prepared-ness pattern (`f` is the skip condition). -/
theorem zip_filterMap_eq {β : Type} (g : Item × Int → β) (f : Item × Int → Bool) :
    ∀ (items : List (Item × Int)) (prep : List (Option (List (String × RowVal)))),
      prep.map Option.isSome = items.map (fun p => !f p) →
      ((items.zip prep).filterMap fun q => if q.2.isSome then some (g q.1) else none)
        = items.filterMap fun p => if f p then none else some (g p) := by
  intro items
  induction items with
  | nil => intro prep h; simp
  | cons p rest ih =>
    intro prep h
    cases prep with
    | nil => simp at h
    | cons o prest =>
      simp only [List.map_cons, List.cons.injEq] at h
      obtain ⟨h1, h2⟩ := h
      cases hf : f p
      · rw [hf] at h1
        simp only [Bool.not_false] at h1
        simp [List.filterMap_cons, h1, hf, ih prest h2]
      · rw [hf] at h1
        simp only [Bool.not_true] at h1
        simp [List.filterMap_cons, h1, hf, ih prest h2]

theorem filterMap_some_eq_map {α β : Type} (g : α → β) :
    ∀ (l : List α), (l.filterMap fun x => some (g x)) = l.map g := by
  intro l
  induction l with
  | nil => rfl
  | cons x rest ih => simp [List.filterMap_cons, ih]

/-! ## Unfolding and state lemmas for `runPassN` -/

theorem runPassN_done (e : MdEngine) (root : String) (items : List (Item × Int))
    (cr : String) (fuel : Nat) (part : Bool) (md1 : FragmentedMarkdown)
    (c1 : List (String × Int)) (p1 : List (String × List (String × String)))
    {md2 prep pr2 t2 evs1}
    (h : prepLoop e part c1 items md1 p1 (ProgressTracker.init (items.length * 2))
        = .done md2 prep pr2 t2 evs1) :
    runPassN e root items cr fuel part md1 c1 p1
      = finishPass e items cr part c1 md2 prep pr2 t2 evs1 := by
  cases fuel <;> simp only [runPassN, h]

theorem runPassN_restart0 (e : MdEngine) (root : String) (items : List (Item × Int))
    (cr : String) (part : Bool) (md1 : FragmentedMarkdown)
    (c1 : List (String × Int)) (p1 : List (String × List (String × String)))
    {mdR evs}
    (h : prepLoop e part c1 items md1 p1 (ProgressTracker.init (items.length * 2))
        = .restart mdR evs) :
    runPassN e root items cr 0 part md1 c1 p1
      = { trace := [], events := evs, state := ⟨some mdR, [], [], cr⟩,
          restarted := true, diverged := true } := by
  simp only [runPassN, h]

theorem runPassN_restart_succ (e : MdEngine) (root : String) (items : List (Item × Int))
    (cr : String) (fuel : Nat) (part : Bool) (md1 : FragmentedMarkdown)
    (c1 : List (String × Int)) (p1 : List (String × List (String × String)))
    {mdR evs}
    (h : prepLoop e part c1 items md1 p1 (ProgressTracker.init (items.length * 2))
        = .restart mdR evs) :
    runPassN e root items cr (fuel + 1) part md1 c1 p1
      = { runPassN e root items cr fuel false
            (FragmentedMarkdown.reset
              (if root != cr then FragmentedMarkdown.init root else mdR)) [] [] with
          events := evs ++ (runPassN e root items cr fuel false
            (FragmentedMarkdown.reset
              (if root != cr then FragmentedMarkdown.init root else mdR)) [] []).events
          restarted := true } := by
  simp only [runPassN, h]

theorem runPassN_state_fields (e : MdEngine) (root : String) (items : List (Item × Int))
    (cr : String) :
    ∀ (fuel : Nat) (part : Bool) (md1 : FragmentedMarkdown)
      (c1 : List (String × Int)) (p1 : List (String × List (String × String))),
      (runPassN e root items cr fuel part md1 c1 p1).state.current_root = cr ∧
      (runPassN e root items cr fuel part md1 c1 p1).state.md.isSome = true := by
  intro fuel
  induction fuel with
  | zero =>
    intro part md1 c1 p1
    cases h : prepLoop e part c1 items md1 p1 (ProgressTracker.init (items.length * 2)) <;>
      simp [runPassN, h, finishPass]
  | succ fuel ih =>
    intro part md1 c1 p1
    cases h : prepLoop e part c1 items md1 p1 (ProgressTracker.init (items.length * 2)) with
    | done md2 prep pr2 t2 evs1 => simp [runPassN, h, finishPass]
    | restart mdR evs =>
      rw [runPassN_restart_succ e root items cr fuel part md1 c1 p1 h]
      exact ih false _ [] []

theorem runPassN_basedir (e : MdEngine) (root : String) (items : List (Item × Int))
    (cr : String) (hroot : root = cr) :
    ∀ (fuel : Nat) (part : Bool) (md1 : FragmentedMarkdown)
      (c1 : List (String × Int)) (p1 : List (String × List (String × String)))
      {m : FragmentedMarkdown},
      (runPassN e root items cr fuel part md1 c1 p1).state.md = some m →
      m.base_dir = md1.base_dir := by
  have hne : (root != cr) = false := by simp [hroot]
  intro fuel
  induction fuel with
  | zero =>
    intro part md1 c1 p1 m hm
    cases h : prepLoop e part c1 items md1 p1 (ProgressTracker.init (items.length * 2)) with
    | done md2 prep pr2 t2 evs1 =>
      rw [runPassN_done e root items cr 0 part md1 c1 p1 h] at hm
      simp only [finishPass, FragmentedMarkdown.process_fragments, Option.some.injEq] at hm
      rw [← hm]
      exact prepLoop_done_basedir e part c1 items md1 p1 _ h
    | restart mdR evs =>
      rw [runPassN_restart0 e root items cr part md1 c1 p1 h] at hm
      simp only [Option.some.injEq] at hm
      rw [← hm]
      exact prepLoop_restart_basedir e part c1 items md1 p1 _ h
  | succ fuel ih =>
    intro part md1 c1 p1 m hm
    cases h : prepLoop e part c1 items md1 p1 (ProgressTracker.init (items.length * 2)) with
    | done md2 prep pr2 t2 evs1 =>
      rw [runPassN_done e root items cr (fuel + 1) part md1 c1 p1 h] at hm
      simp only [finishPass, FragmentedMarkdown.process_fragments, Option.some.injEq] at hm
      rw [← hm]
      exact prepLoop_done_basedir e part c1 items md1 p1 _ h
    | restart mdR evs =>
      rw [runPassN_restart_succ e root items cr fuel part md1 c1 p1 h] at hm
      rw [hne] at hm
      have := ih false (FragmentedMarkdown.reset mdR) [] [] hm
      rw [this]
      show mdR.base_dir = md1.base_dir
      exact prepLoop_restart_basedir e part c1 items md1 p1 _ h

/-! ## Output and snapshot shape of a completed pass -/

theorem finishPass_outputs (e : MdEngine) (items : List (Item × Int)) (cr : String)
    (part : Bool) (c1 : List (String × Int)) (md2 : FragmentedMarkdown)
    (prep : List (Option (List (String × RowVal))))
    (pr2 : List (String × List (String × String)))
    (t2 : ProgressTracker) (evs1 : List Nat)
    (hp : prep.map Option.isSome = items.map fun p => !skipB c1 part p) :
    (finishPass e items cr part c1 md2 prep pr2 t2 evs1).outputs.map Prod.fst
      = (items.filterMap fun p => if skipB c1 part p then none else some p.1.uid)
        ++ (if part then [] else ["footer"]) := by
  have hbase := emitLoop_trace_fst e md2.process_fragments (items.zip prep) c1 t2
  rw [zip_filterMap_eq (fun p => p.1.uid) (skipB c1 part) items prep hp] at hbase
  cases part with
  | false =>
    simp only [finishPass, RunResult.outputs]
    simp [List.map_map, Function.comp]
    exact hbase
  | true =>
    simp only [finishPass, RunResult.outputs]
    simp [List.map_map, Function.comp]
    exact hbase

theorem finishPass_snapshots (e : MdEngine) (items : List (Item × Int)) (cr : String)
    (part : Bool) (c1 : List (String × Int)) (md2 : FragmentedMarkdown)
    (prep : List (Option (List (String × RowVal))))
    (pr2 : List (String × List (String × String)))
    (t2 : ProgressTracker) (evs1 : List Nat)
    (hp : prep.map Option.isSome = items.map fun p => !skipB c1 part p) :
    ∀ (k : Nat) {x : (String × String) × List (String × Int)},
      (finishPass e items cr part c1 md2 prep pr2 t2 evs1).trace.get? k = some x →
      x.2 = dinsertList c1
        ((items.filterMap fun p =>
            if skipB c1 part p then none else some (p.1.uid, p.2)).take k) := by
  have hW : emitWrites (items.zip prep)
      = items.filterMap fun p => if skipB c1 part p then none else some (p.1.uid, p.2) := by
    unfold emitWrites
    exact zip_filterMap_eq (fun p => (p.1.uid, p.2)) (skipB c1 part) items prep hp
  intro k x hx
  rw [← hW]
  cases part with
  | true =>
    simp only [finishPass, if_true] at hx
    exact emitLoop_trace_snd e md2.process_fragments _ _ _ _ hx
  | false =>
    simp only [finishPass] at hx
    rw [if_neg (by simp)] at hx
    rcases Nat.lt_or_ge k (emitLoop e md2.process_fragments (items.zip prep) c1 t2).trace.length
      with hk | hk
    · rw [List.get?_append hk] at hx
      exact emitLoop_trace_snd e md2.process_fragments _ _ _ _ hx
    · rw [List.get?_append_right hk] at hx
      have hfin := emitLoop_final e md2.process_fragments (items.zip prep) c1 t2
      cases hkk : k - (emitLoop e md2.process_fragments (items.zip prep) c1 t2).trace.length with
      | zero =>
        rw [hkk] at hx
        simp only [List.get?] at hx
        cases hx
        have hlen : (emitWrites (items.zip prep)).length ≤ k := by
          rw [← hfin.2]
          exact hk
        rw [List.take_all_of_le hlen, hfin.1]
      | succ k2 =>
        rw [hkk] at hx
        simp at hx

/-! ## Lemmas about the exception-aware loops -/

theorem prepLoopE_done_isSome (o : ExnOracle) (e : MdEngine) (part : Bool)
    (cache : List (String × Int)) :
    ∀ (items : List (Item × Int)) (md : FragmentedMarkdown)
      (pr : List (String × List (String × String))) (t : ProgressTracker)
      {md2 prep pr2 t2 evs},
      prepLoopE o e part cache items md pr t = .done md2 prep pr2 t2 evs →
      prep.map Option.isSome = items.map fun p => !skipB cache part p := by
  intro items
  induction items with
  | nil =>
    intro md pr t md2 prep pr2 t2 evs h
    simp only [prepLoopE] at h
    cases h
    simp
  | cons p rest ih =>
    intro md pr t md2 prep pr2 t2 evs h
    by_cases hs : skipB cache part p
    · simp only [prepLoopE, hs, if_true] at h
      cases hrec : prepLoopE o e part cache rest md pr (t.progress_one).1 <;> rw [hrec] at h
      · cases h
      · cases h
      · cases h
        simp [hs, ih _ _ _ hrec]
    · simp only [prepLoopE, hs, if_false] at h
      cases hpe : o.prepExn p.1 <;> rw [hpe] at h
      · by_cases hc : (dlookup pr p.1.uid).any fun r => decide (¬ r = (prepare e md p.1).2.2)
        · rw [if_pos hc] at h
          cases h
        · rw [if_neg hc] at h
          cases hrec : prepLoopE o e part cache rest (prepare e md p.1).1
              (dinsert pr p.1.uid (prepare e md p.1).2.2) (t.progress_one).1 <;> rw [hrec] at h
          · cases h
          · cases h
          · cases h
            simp [hs, ih _ _ _ hrec]
      · cases h

theorem emitLoopE_cache (o : ExnOracle) (e : MdEngine) (md : FragmentedMarkdown) :
    ∀ (l : List ((Item × Int) × Option (List (String × RowVal))))
      (c : List (String × Int)) (t : ProgressTracker),
      (emitLoopE o e md l c t).cache
        = dinsertList c ((emitWrites l).take (emitLoopE o e md l c t).outputs.length) ∧
      ((emitLoopE o e md l c t).exn = none →
        (emitLoopE o e md l c t).outputs.length = (emitWrites l).length) := by
  intro l
  induction l with
  | nil => intro c t; simp [emitLoopE, emitWrites, dinsertList]
  | cons q rest ih =>
    intro c t
    cases hq : q.2 with
    | some rows =>
      cases hpe : o.renderExn q.1.1 with
      | some pe =>
        simp [emitLoopE, hq, hpe, dinsertList]
      | none =>
        simp only [emitLoopE, hq, hpe]
        constructor
        · rw [(ih _ _).1]
          simp [emitWrites, hq, dinsertList_cons, List.take_succ_cons]
        · intro hex
          have := (ih (dinsert c q.1.1.uid q.1.2) (t.progress_one).1).2 hex
          simp [emitWrites, hq, this]
    | none =>
      cases hres : emitLoopE o e md rest c (t.progress_one).1 with
      | mk outs cch trk evs exn =>
        simp only [emitLoopE, hq, hres]
        have h1 := (ih c (t.progress_one).1).1
        have h2 := (ih c (t.progress_one).1).2
        rw [hres] at h1 h2
        constructor
        · simpa [emitWrites, hq] using h1
        · intro hex
          simpa [emitWrites, hq] using h2 hex

theorem bodyPassN_exn (o : ExnOracle) (e : MdEngine) (root : String)
    (items : List (Item × Int)) (cr : String) :
    ∀ (fuel : Nat) (part : Bool) (md1 : FragmentedMarkdown)
      (c1 : List (String × Int)) (p1 : List (String × List (String × String)))
      {pe : PyExn},
      (bodyPassN o e root items cr fuel part md1 c1 p1).exn = some pe →
      (bodyPassN o e root items cr fuel part md1 c1 p1).restarted = false ∧
      (bodyPassN o e root items cr fuel part md1 c1 p1).state.cache
        = dinsertList c1
          ((items.filterMap fun p =>
              if skipB c1 part p then none else some (p.1.uid, p.2)).take
            (bodyPassN o e root items cr fuel part md1 c1 p1).outputs.length) := by
  intro fuel part md1 c1 p1 pe hexn
  cases hpl : prepLoopE o e part c1 items md1 p1 (ProgressTracker.init (items.length * 2)) with
  | fail pe2 md pr evs =>
    unfold bodyPassN
    rw [hpl]
    simp [dinsertList]
  | restart mdR evs =>
    unfold bodyPassN at hexn
    rw [hpl] at hexn
    cases fuel with
    | zero => simp at hexn
    | succ fuel2 => simp at hexn
  | done md2 prep pr2 t2 evs1 =>
    have hW : emitWrites (items.zip prep)
        = items.filterMap fun p => if skipB c1 part p then none else some (p.1.uid, p.2) := by
      unfold emitWrites
      exact zip_filterMap_eq (fun p => (p.1.uid, p.2)) (skipB c1 part) items prep
        (prepLoopE_done_isSome o e part c1 items md1 p1 _ hpl)
    have hcch := emitLoopE_cache o e md2.process_fragments (items.zip prep) c1 t2
    rw [hW] at hcch
    unfold bodyPassN at hexn ⊢
    rw [hpl] at hexn ⊢
    cases hex : (emitLoopE o e md2.process_fragments (items.zip prep) c1 t2).exn with
    | some pe2 =>
      simp only [hex] at hexn ⊢
      simp [hcch.1]
    | none =>
      cases part with
      | true =>
        simp only [hex] at hexn
        simp at hexn
      | false =>
        cases hfe : o.footerExn with
        | some pe2 =>
          simp only [hex, hfe] at hexn ⊢
          simp [hcch.1]
        | none =>
          simp only [hex, hfe] at hexn
          simp at hexn

/-! ## Decimal digits contain no dot -/

theorem digitChar_ne_dot (n : Nat) : Nat.digitChar n ≠ '.' := by
  rcases Nat.lt_or_ge n 16 with h | h
  · interval_cases n <;> decide
  · have hstar : Nat.digitChar n = '*' := by
      unfold Nat.digitChar
      repeat rw [if_neg (by omega)]
    rw [hstar]
    decide

theorem toDigitsCore_no_dot (b : Nat) :
    ∀ (fuel n : Nat) (ds : List Char), '.' ∉ ds → '.' ∉ Nat.toDigitsCore b fuel n ds := by
  intro fuel
  induction fuel with
  | zero =>
    intro n ds h
    simpa [Nat.toDigitsCore] using h
  | succ fuel ih =>
    intro n ds h
    simp only [Nat.toDigitsCore]
    split
    · intro hmem
      rcases List.mem_cons.mp hmem with h1 | h1
      · exact digitChar_ne_dot _ h1.symm
      · exact h h1
    · refine ih _ _ ?_
      intro hmem
      rcases List.mem_cons.mp hmem with h1 | h1
      · exact digitChar_ne_dot _ h1.symm
      · exact h h1

theorem repr_no_dot (n : Nat) : '.' ∉ (Nat.repr n).data := by
  have hd : (Nat.repr n).data = Nat.toDigitsCore 10 (n + 1) n [] := rfl
  rw [hd]
  exact toDigitsCore_no_dot 10 (n + 1) n [] (by simp)

theorem string_data_append (a b : String) : (a ++ b).data = a.data ++ b.data := rfl

theorem countDot_pyJoin :
    ∀ (l : List String), (∀ s ∈ l, '.' ∉ s.data) →
      countDot (pyJoin "." l) = l.length - 1 := by
  intro l
  induction l with
  | nil =>
    intro _
    simp [pyJoin, countDot]
  | cons x rest ih =>
    intro h
    cases rest with
    | nil =>
      show countDot x = 0
      exact List.count_eq_zero.mpr (h x (by simp))
    | cons y rest2 =>
      have hx : '.' ∉ x.data := h x (by simp)
      have hih := ih fun s hs => h s (by simp [List.mem_cons] at hs ⊢; tauto)
      show countDot (x ++ "." ++ pyJoin "." (y :: rest2)) = (x :: y :: rest2).length - 1
      unfold countDot
      rw [string_data_append, string_data_append, List.count_append, List.count_append]
      rw [List.count_eq_zero.mpr hx]
      unfold countDot at hih
      have hdot : List.count '.' (String.data ".") = 1 := by decide
      rw [hdot, hih]
      simp only [List.length_cons]
      omega

/-! ## The claims -/

/-- C8: For every header item (level ending in a zero component, with the
doorstop invariant that the stored level parts are positive), the rendered
heading tag depth — `str(item.level).count(".")` in the code — equals the
count of non-zero dot-separated components of the item's level; the visible
heading text is the first line of the item's body text; and the text
registered for the body row is the remaining lines. -/
theorem C8_header_item_shape (item : Item)
    (hh : is_header_item item = true)
    (hpos : ∀ p ∈ item.levelParts, 0 < p) :
    headerTag item = "h" ++ Nat.repr ((levelValue item).countP fun p => p != 0) ∧
    headerText item = (pySplitlines item.text).headD "" ∧
    prepItemText item = pyJoin "\n" ((pySplitlines item.text).drop 1) := by
  have hh2 : item.levelHeading = true := by
    unfold is_header_item at hh
    simp at hh
    exact hh.2
  refine ⟨?_, ?_, ?_⟩
  · have h1 : countDot (levelStr item) = (levelValue item).length - 1 := by
      unfold levelStr
      rw [countDot_pyJoin]
      · simp
      · intro s hs
        rcases List.mem_map.mp hs with ⟨n, _, rfl⟩
        exact repr_no_dot n
    have h3 : (levelValue item).length - 1 = item.levelParts.length := by
      unfold levelValue
      rw [hh2]
      simp
    have h2 : (levelValue item).countP (fun p => p != 0) = item.levelParts.length := by
      unfold levelValue
      rw [hh2]
      simp [List.countP_append]
      intro a ha
      exact (hpos a ha).ne'
    unfold headerTag
    rw [if_pos hh, h1, h3, h2]
  · unfold headerText
    rw [if_pos hh]
  · unfold prepItemText
    rw [if_pos hh]

/-- Witness for C8 at the concrete header item with raw level `1.0.0`,
which doorstop normalizes to parts `[1]` with the heading flag: the
rendered tag is `h1`. -/
theorem C8_header_item_shape_witness :
    is_header_item itemH = true ∧ (∀ p ∈ itemH.levelParts, 0 < p) ∧
    headerTag itemH = "h" ++ Nat.repr ((levelValue itemH).countP fun p => p != 0) ∧
    headerTag itemH = "h1" :=
  ⟨by decide, by decide, (C8_header_item_shape itemH (by decide) (by decide)).1, by decide⟩

/-- C4: evaluation of the code at the failing input.  A full render of a
single item reports the progress sequence `[50, 100, 150]`: the guard
`count <= total_count` in `progress_one` lets the count reach
`total_count + 1`, and line 100 reports the resulting value unconditionally,
so the final reported value is 150 — not 100, and outside `0..=100`. -/
theorem C4_progress_single_item_150 :
    (process trivEngine initState "root" false [(itemB, 1)]).events = [50, 100, 150] := by
  decide

/-- C5: evaluation of the code at the failing input.  After a full render
with root `"x"` from a fresh renderer, `current_root` still holds its
initial value `""` (it is never assigned), so a second call with the same
root `"x"` satisfies the replacement condition of line 59 and replaces the
store instead of keeping it. -/
theorem C5_store_replaced_despite_same_root :
    (process trivEngine initState "x" false [(itemB, 1)]).state.current_root = "" ∧
    mdReplaced (process trivEngine initState "x" false [(itemB, 1)]).state "x" = true := by
  decide

/-- C2 counterexample: on a list with two entries sharing uid `D` whose
texts declare different reference definitions, even the restarted
(cleared, forced-full) pass requests a restart again, so the restart does
not happen at most once: the run diverges (in Python the recursion repeats
until `RecursionError`). -/
theorem C2_duplicate_uid_diverges :
    (process trivEngine initState "root" false dupItems).diverged = true := by
  decide

theorem runPass1_diverged_false (e : MdEngine) (root : String)
    (items : List (Item × Int)) (cr : String) (part : Bool)
    (md1 : FragmentedMarkdown) (c1 : List (String × Int))
    (p1 : List (String × List (String × String)))
    (hsame : ∀ p ∈ items, ∀ q ∈ items, p.1.uid = q.1.uid → refsOf p.1 = refsOf q.1) :
    (runPassN e root items cr 1 part md1 c1 p1).diverged = false := by
  cases h : prepLoop e part c1 items md1 p1 (ProgressTracker.init (items.length * 2)) with
  | done md2 prep pr2 t2 evs1 =>
    rw [runPassN_done e root items cr 1 part md1 c1 p1 h]
    simp [finishPass]
  | restart mdR evs =>
    rw [runPassN_restart_succ e root items cr 0 part md1 c1 p1 h]
    show (runPassN e root items cr 0 false
      (FragmentedMarkdown.reset
        (if root != cr then FragmentedMarkdown.init root else mdR)) [] []).diverged = false
    set md2 := FragmentedMarkdown.reset
      (if root != cr then FragmentedMarkdown.init root else mdR) with hmd2
    have hnr := prepLoop_no_restart e false [] items md2 []
      (ProgressTracker.init (items.length * 2))
      (fun p _ r hr => by simp [dlookup] at hr) hsame
    cases h2 : prepLoop e false [] items md2 [] (ProgressTracker.init (items.length * 2)) with
    | restart m evs2 =>
      rw [h2] at hnr
      simp [PrepOut.isRestart] at hnr
    | done md3 prep pr2 t2 evs1 =>
      rw [runPassN_done e root items cr 0 false md2 [] [] h2]
      simp [finishPass]

/-- C2 (amended): provided no two entries of the list share a uid while
computing different reference-definition sets — in particular whenever the
uids are pairwise distinct — the recursive restart of `process` occurs at
most once per call: the pass restarted with cleared caches and
`partial=false` never requests a second restart, so the call completes
(the run is not diverged), for every state, root and partial flag. -/
theorem C2_restart_at_most_once (e : MdEngine) (st : RendererState) (root : String)
    (part : Bool) (items : List (Item × Int))
    (hsame : ∀ p ∈ items, ∀ q ∈ items, p.1.uid = q.1.uid → refsOf p.1 = refsOf q.1) :
    (process e st root part items).diverged = false := by
  unfold process
  cases part with
  | true => exact runPass1_diverged_false e root items st.current_root true _ _ _ hsame
  | false => exact runPass1_diverged_false e root items st.current_root false _ _ _ hsame

/-- Witness for the amended C2 at a concrete two-item list with distinct
uids: the call completes. -/
theorem C2_restart_at_most_once_witness :
    (∀ p ∈ [(itemA0, (1 : Int)), (itemB, 1)], ∀ q ∈ [(itemA0, (1 : Int)), (itemB, 1)],
        p.1.uid = q.1.uid → refsOf p.1 = refsOf q.1) ∧
    (process trivEngine initState "root" false [(itemA0, 1), (itemB, 1)]).diverged = false :=
  ⟨by decide, C2_restart_at_most_once trivEngine initState "root" false _ (by decide)⟩

theorem reset_congr (a b : FragmentedMarkdown) (h : a.base_dir = b.base_dir) :
    a.reset = b.reset := by
  cases a
  cases b
  simp only [FragmentedMarkdown.reset]
  simp_all

/-- Outputs of a full pass depend on the incoming state only through
`current_root` and the base directory of the store the pass starts from. -/
theorem process_full_congr (e : MdEngine) (root : String) (items : List (Item × Int))
    (s s2 : RendererState)
    (hcr : s2.current_root = s.current_root)
    (hbd : (if mdReplaced s2 root then FragmentedMarkdown.init root
        else s2.md.getD (FragmentedMarkdown.init root)).base_dir
      = (if mdReplaced s root then FragmentedMarkdown.init root
        else s.md.getD (FragmentedMarkdown.init root)).base_dir) :
    process e s2 root false items = process e s root false items := by
  show runPassN e root items s2.current_root 1 false
      ((if mdReplaced s2 root then FragmentedMarkdown.init root
        else s2.md.getD (FragmentedMarkdown.init root)).reset) [] []
    = runPassN e root items s.current_root 1 false
      ((if mdReplaced s root then FragmentedMarkdown.init root
        else s.md.getD (FragmentedMarkdown.init root)).reset) [] []
  rw [hcr, reset_congr _ _ hbd]

/-- C7: calling `process` twice in succession with `partial=false`, the
same root and the identical item list produces the identical output
sequence both times (the markdown engine being a pure function of its
inputs): a full pass clears both caches and resets the store, so its
outputs depend only on the engine, the root, the items and the store's base
directory, which the first call preserves. -/
theorem C7_full_render_idempotent (e : MdEngine) (st : RendererState) (root : String)
    (items : List (Item × Int)) :
    (process e (process e st root false items).state root false items).outputs
      = (process e st root false items).outputs := by
  have hcr : (process e st root false items).state.current_root = st.current_root := by
    show (runPassN e root items st.current_root 1 false
      ((if mdReplaced st root then FragmentedMarkdown.init root
        else st.md.getD (FragmentedMarkdown.init root)).reset) [] []).state.current_root
      = st.current_root
    exact (runPassN_state_fields e root items st.current_root 1 false _ [] []).1
  have hsome : (process e st root false items).state.md.isSome = true := by
    show (runPassN e root items st.current_root 1 false
      ((if mdReplaced st root then FragmentedMarkdown.init root
        else st.md.getD (FragmentedMarkdown.init root)).reset) [] []).state.md.isSome
      = true
    exact (runPassN_state_fields e root items st.current_root 1 false _ [] []).2
  have hbd : (if mdReplaced (process e st root false items).state root
        then FragmentedMarkdown.init root
        else (process e st root false items).state.md.getD
          (FragmentedMarkdown.init root)).base_dir
      = (if mdReplaced st root then FragmentedMarkdown.init root
        else st.md.getD (FragmentedMarkdown.init root)).base_dir := by
    cases hrc : root != st.current_root with
    | true =>
      have h1 : mdReplaced st root = true := by simp [mdReplaced, hrc]
      have h2 : mdReplaced (process e st root false items).state root = true := by
        simp [mdReplaced, hcr, hrc]
      rw [h1, h2]
      simp
    | false =>
      have hroot : root = st.current_root := by simpa using hrc
      have h1 : mdReplaced st root = st.md.isNone || false := by
        simp [mdReplaced, hrc]
      have h2 : mdReplaced (process e st root false items).state root = false := by
        simp [mdReplaced, hsome, hcr, hrc]
      obtain ⟨m, hm⟩ := Option.isSome_iff_exists.mp hsome
      have hm2 : (runPassN e root items st.current_root 1 false
          ((if mdReplaced st root then FragmentedMarkdown.init root
            else st.md.getD (FragmentedMarkdown.init root)).reset) [] []).state.md
          = some m := hm
      have hbase : m.base_dir
          = ((if mdReplaced st root then FragmentedMarkdown.init root
              else st.md.getD (FragmentedMarkdown.init root)).reset).base_dir :=
        runPassN_basedir e root items st.current_root hroot 1 false _ [] [] hm2
      rw [h2]
      simp only [Bool.false_eq_true, if_false, hm, Option.getD_some]
      rw [hbase]
      rfl
  rw [process_full_congr e root items st (process e st root false items).state hcr hbd]

theorem process_partial_def (e : MdEngine) (st : RendererState) (root : String)
    (items : List (Item × Int)) :
    process e st root true items
      = runPassN e root items st.current_root 1 true
        (if mdReplaced st root then FragmentedMarkdown.init root
          else st.md.getD (FragmentedMarkdown.init root)) st.cache st.prev_refs := rfl

theorem process_full_def (e : MdEngine) (st : RendererState) (root : String)
    (items : List (Item × Int)) :
    process e st root false items
      = runPassN e root items st.current_root 1 false
        ((if mdReplaced st root then FragmentedMarkdown.init root
          else st.md.getD (FragmentedMarkdown.init root)).reset) [] [] := rfl

/-- A full pass started with cleared caches whose preparation loop
completed emits one pair per item, in order, followed by the footer. -/
theorem runPass_full_done_outputs (e : MdEngine) (root : String)
    (items : List (Item × Int)) (cr : String) (fuel : Nat)
    (md1 : FragmentedMarkdown) {md2 prep pr2 t2 evs1}
    (h : prepLoop e false [] items md1 [] (ProgressTracker.init (items.length * 2))
        = .done md2 prep pr2 t2 evs1) :
    (runPassN e root items cr fuel false md1 [] []).outputs.map Prod.fst
      = items.map (fun p => p.1.uid) ++ ["footer"] := by
  rw [runPassN_done e root items cr fuel false md1 [] [] h]
  rw [finishPass_outputs e items cr false [] md2 prep pr2 t2 evs1
    (prepLoop_done_isSome e false [] items md1 [] _ h)]
  simp [skipB, filterMap_some_eq_map]

/-- C1: after a full render, a partial re-render in which some re-prepared
item's newly computed reference-definition set differs from the recorded
one clears both caches, resets the store and restarts as a full pass, so
every item of the request — timestamp-skipped ones included — is re-emitted
(one pair per item, in order, then the footer).  Uids are assumed pairwise
distinct, as for doorstop items. -/
theorem C1_reference_change_reemits_all (e : MdEngine) (st : RendererState)
    (root : String) (items1 items2 : List (Item × Int))
    (hnd : (items2.map fun p => p.1.uid).Nodup)
    (hq : ∃ p ∈ items2,
      qualifiesB (process e st root false items1).state.cache
        (process e st root false items1).state.prev_refs p = true) :
    ((process e (process e st root false items1).state root true items2).outputs.map
        Prod.fst)
      = items2.map (fun p => p.1.uid) ++ ["footer"] := by
  set st1 := (process e st root false items1).state with hst1
  rw [process_partial_def]
  set md0 := if mdReplaced st1 root then FragmentedMarkdown.init root
    else st1.md.getD (FragmentedMarkdown.init root) with hmd0
  have hiff := prepLoop_restart_iff e st1.cache st1.prev_refs items2 md0 st1.prev_refs
    (ProgressTracker.init (items2.length * 2)) hnd (fun p _ => rfl)
  have hres : (prepLoop e true st1.cache items2 md0 st1.prev_refs
      (ProgressTracker.init (items2.length * 2))).isRestart = true := hiff.mpr hq
  cases h : prepLoop e true st1.cache items2 md0 st1.prev_refs
      (ProgressTracker.init (items2.length * 2)) with
  | done md2 prep pr2 t2 evs1 =>
    rw [h] at hres
    simp [PrepOut.isRestart] at hres
  | restart mdR evs =>
    rw [runPassN_restart_succ e root items2 st1.current_root 0 true md0 st1.cache
      st1.prev_refs h]
    have hsame : ∀ p ∈ items2, ∀ q ∈ items2, p.1.uid = q.1.uid → refsOf p.1 = refsOf q.1 := by
      intro p hp q hq2 huid
      rw [List.inj_on_of_nodup_map hnd hp hq2 huid]
    have hnr := prepLoop_no_restart e false [] items2
      (FragmentedMarkdown.reset
        (if root != st1.current_root then FragmentedMarkdown.init root else mdR)) []
      (ProgressTracker.init (items2.length * 2))
      (fun p _ r hr => by simp [dlookup] at hr) hsame
    cases h2 : prepLoop e false [] items2
        (FragmentedMarkdown.reset
          (if root != st1.current_root then FragmentedMarkdown.init root else mdR)) []
        (ProgressTracker.init (items2.length * 2)) with
    | restart m2 evs2 =>
      rw [h2] at hnr
      simp [PrepOut.isRestart] at hnr
    | done md2 prep pr2 t2 evs1 =>
      show ((runPassN e root items2 st1.current_root 0 false
        (FragmentedMarkdown.reset
          (if root != st1.current_root then FragmentedMarkdown.init root else mdR))
        [] []).outputs.map Prod.fst) = items2.map (fun p => p.1.uid) ++ ["footer"]
      exact runPass_full_done_outputs e root items2 st1.current_root 0 _ h2

/-- Witness for C1: full render of `A(1), B(1)` with `A` declaring
`[r]: x`, then a partial render where `A(2)` redefines the reference as
`[r]: y` while `B(1)` is unchanged and timestamp-equal: both items and the
footer are re-emitted. -/
theorem C1_reference_change_reemits_all_witness :
    ((([(itemA1, (2 : Int)), (itemB, 1)]).map fun p => p.1.uid).Nodup) ∧
    (∃ p ∈ [(itemA1, (2 : Int)), (itemB, 1)],
      qualifiesB
        (process trivEngine initState "root" false [(itemA0, 1), (itemB, 1)]).state.cache
        (process trivEngine initState "root" false [(itemA0, 1), (itemB, 1)]).state.prev_refs
        p = true) ∧
    ((process trivEngine
        (process trivEngine initState "root" false [(itemA0, 1), (itemB, 1)]).state
        "root" true [(itemA1, 2), (itemB, 1)]).outputs.map Prod.fst)
      = ([(itemA1, (2 : Int)), (itemB, 1)]).map (fun p => p.1.uid) ++ ["footer"] :=
  ⟨by decide, by decide,
    C1_reference_change_reemits_all trivEngine initState "root"
      [(itemA0, 1), (itemB, 1)] [(itemA1, 2), (itemB, 1)] (by decide) (by decide)⟩

/-- C3 counterexample: after the full render of `A(1), B(1)`, the partial
render `A(2), B(1)` — where `A`'s text now declares a different reference
definition — emits a pair for `B` (and for `A`, and a footer) even though
`B`'s id is in the timestamp cache with cached value `1` equal to the
supplied timestamp `1`, because the reference change restarts the pass as a
full render.  This refutes the claim that such an item emits no pair. -/
theorem C3_cached_equal_item_still_emitted :
    dlookup
      (process trivEngine initState "root" false [(itemA0, 1), (itemB, 1)]).state.cache "B"
      = some 1 ∧
    ((process trivEngine
        (process trivEngine initState "root" false [(itemA0, 1), (itemB, 1)]).state
        "root" true [(itemA1, 2), (itemB, 1)]).outputs.map Prod.fst)
      = ["A", "B", "footer"] := by
  decide

/-- C3 (amended): in a partial render in which no re-prepared item's
reference set differs from its previously recorded one (so no restart is
triggered; uids pairwise distinct), every item whose id is in the timestamp
cache with cached value equal to the supplied timestamp emits no pair, and
every other item emits exactly one pair, in input order. -/
theorem C3_partial_skip_correct (e : MdEngine) (st : RendererState) (root : String)
    (items : List (Item × Int))
    (hnd : (items.map fun p => p.1.uid).Nodup)
    (hq : ¬ ∃ p ∈ items, qualifiesB st.cache st.prev_refs p = true) :
    ((process e st root true items).outputs.map Prod.fst)
      = items.filterMap fun p => if skipB st.cache true p then none else some p.1.uid := by
  rw [process_partial_def]
  set md0 := if mdReplaced st root then FragmentedMarkdown.init root
    else st.md.getD (FragmentedMarkdown.init root) with hmd0
  have hiff := prepLoop_restart_iff e st.cache st.prev_refs items md0 st.prev_refs
    (ProgressTracker.init (items.length * 2)) hnd (fun p _ => rfl)
  cases h : prepLoop e true st.cache items md0 st.prev_refs
      (ProgressTracker.init (items.length * 2)) with
  | restart mdR evs =>
    exact absurd (hiff.mp (by rw [h]; rfl)) hq
  | done md2 prep pr2 t2 evs1 =>
    rw [runPassN_done e root items st.current_root 1 true md0 st.cache st.prev_refs h]
    rw [finishPass_outputs e items st.current_root true st.cache md2 prep pr2 t2 evs1
      (prepLoop_done_isSome e true st.cache items md0 st.prev_refs _ h)]
    simp

/-- Witness for the amended C3: full render of `A(1), B(1)`, then a partial
render of `A(1), B(2)` with unchanged texts — exactly one pair is emitted,
for `B`. -/
theorem C3_partial_skip_correct_witness :
    ((([(itemA0, (1 : Int)), (itemB, 2)]).map fun p => p.1.uid).Nodup) ∧
    (¬ ∃ p ∈ [(itemA0, (1 : Int)), (itemB, 2)],
      qualifiesB
        (process trivEngine initState "root" false [(itemA0, 1), (itemB, 1)]).state.cache
        (process trivEngine initState "root" false [(itemA0, 1), (itemB, 1)]).state.prev_refs
        p = true) ∧
    ((process trivEngine
        (process trivEngine initState "root" false [(itemA0, 1), (itemB, 1)]).state
        "root" true [(itemA0, 1), (itemB, 2)]).outputs.map Prod.fst) = ["B"] :=
  ⟨by decide, by decide,
    (C3_partial_skip_correct trivEngine
      (process trivEngine initState "root" false [(itemA0, 1), (itemB, 1)]).state
      "root" [(itemA0, 1), (itemB, 2)] (by decide) (by decide)).trans (by decide)⟩

/-- C6 counterexample: a call with `partial=true` can emit a `footer` pair —
it does whenever a reference change restarts the pass as full — refuting
"a footer pair is emitted only if partial=false". -/
theorem C6_partial_call_emits_footer :
    (((process trivEngine
        (process trivEngine initState "root" false [(itemA0, 1), (itemB, 1)]).state
        "root" true [(itemA1, 2), (itemB, 1)]).outputs.map Prod.fst).getLast?)
      = some "footer" := by
  decide

/-- C6 (amended): pairs are emitted in the order items appear in the input
list (the engine never re-sorts); a `("footer", …)` pair is emitted iff the
executed pass is full — that is, iff `partial=false` or the pass restarted
as full after a reference change — and when emitted it is the last pair. -/
theorem C6_output_order_and_footer (e : MdEngine) (st : RendererState) (root : String)
    (part : Bool) (items : List (Item × Int))
    (hdv : (process e st root part items).diverged = false) :
    (process e st root part items).outputs.map Prod.fst
      = if part && !(process e st root part items).restarted then
          items.filterMap fun p => if skipB st.cache true p then none else some p.1.uid
        else items.map (fun p => p.1.uid) ++ ["footer"] := by
  cases part with
  | false =>
    rw [process_full_def] at hdv ⊢
    set md1 := (if mdReplaced st root then FragmentedMarkdown.init root
      else st.md.getD (FragmentedMarkdown.init root)).reset with hmd1
    cases h : prepLoop e false [] items md1 [] (ProgressTracker.init (items.length * 2)) with
    | done md2 prep pr2 t2 evs1 =>
      rw [runPassN_done e root items st.current_root 1 false md1 [] [] h]
      rw [show (finishPass e items st.current_root false [] md2 prep pr2 t2 evs1).restarted
        = false from rfl]
      rw [← runPassN_done e root items st.current_root 1 false md1 [] [] h]
      simp only [Bool.false_and, Bool.not_false, Bool.and_false]
      rw [if_neg (by simp)]
      exact runPass_full_done_outputs e root items st.current_root 1 md1 h
    | restart mdR evs =>
      rw [runPassN_restart_succ e root items st.current_root 0 false md1 [] [] h] at hdv ⊢
      set md2 := FragmentedMarkdown.reset
        (if root != st.current_root then FragmentedMarkdown.init root else mdR) with hmd2
      cases h2 : prepLoop e false [] items md2 [] (ProgressTracker.init (items.length * 2)) with
      | restart m2 evs2 =>
        rw [runPassN_restart0 e root items st.current_root false md2 [] [] h2] at hdv
        simp at hdv
      | done md3 prep pr2 t2 evs1 =>
        rw [if_neg (by simp)]
        show ((runPassN e root items st.current_root 0 false md2 [] []).outputs.map Prod.fst)
          = items.map (fun p => p.1.uid) ++ ["footer"]
        exact runPass_full_done_outputs e root items st.current_root 0 md2 h2
  | true =>
    rw [process_partial_def] at hdv ⊢
    set md0 := if mdReplaced st root then FragmentedMarkdown.init root
      else st.md.getD (FragmentedMarkdown.init root) with hmd0
    cases h : prepLoop e true st.cache items md0 st.prev_refs
        (ProgressTracker.init (items.length * 2)) with
    | done md2 prep pr2 t2 evs1 =>
      rw [runPassN_done e root items st.current_root 1 true md0 st.cache st.prev_refs h]
      rw [show (finishPass e items st.current_root true st.cache md2 prep pr2 t2 evs1).restarted
        = false from rfl]
      rw [if_pos (by simp)]
      rw [finishPass_outputs e items st.current_root true st.cache md2 prep pr2 t2 evs1
        (prepLoop_done_isSome e true st.cache items md0 st.prev_refs _ h)]
      simp
    | restart mdR evs =>
      rw [runPassN_restart_succ e root items st.current_root 0 true md0 st.cache
        st.prev_refs h] at hdv ⊢
      set md2 := FragmentedMarkdown.reset
        (if root != st.current_root then FragmentedMarkdown.init root else mdR) with hmd2
      cases h2 : prepLoop e false [] items md2 [] (ProgressTracker.init (items.length * 2)) with
      | restart m2 evs2 =>
        rw [runPassN_restart0 e root items st.current_root false md2 [] [] h2] at hdv
        simp at hdv
      | done md3 prep pr2 t2 evs1 =>
        rw [if_neg (by simp)]
        show ((runPassN e root items st.current_root 0 false md2 [] []).outputs.map Prod.fst)
          = items.map (fun p => p.1.uid) ++ ["footer"]
        exact runPass_full_done_outputs e root items st.current_root 0 md2 h2

/-- Witness for the amended C6: a full render of two items emits their
pairs in input order with the footer last. -/
theorem C6_output_order_and_footer_witness :
    ((process trivEngine initState "root" false [(itemB, 1), (itemA0, 1)]).diverged = false) ∧
    ((process trivEngine initState "root" false [(itemB, 1), (itemA0, 1)]).outputs.map
        Prod.fst) = ["B", "A", "footer"] :=
  ⟨by decide,
    (C6_output_order_and_footer trivEngine initState "root" false
      [(itemB, 1), (itemA0, 1)] (by decide)).trans (by decide)⟩

theorem bodyE_partial_def (o : ExnOracle) (e : MdEngine) (st : RendererState)
    (root : String) (items : List (Item × Int)) :
    bodyE o e st root true items
      = bodyPassN o e root items st.current_root 1 true
        (if mdReplaced st root then FragmentedMarkdown.init root
          else st.md.getD (FragmentedMarkdown.init root)) st.cache st.prev_refs := rfl

theorem bodyE_full_def (o : ExnOracle) (e : MdEngine) (st : RendererState)
    (root : String) (items : List (Item × Int)) :
    bodyE o e st root false items
      = bodyPassN o e root items st.current_root 1 false
        ((if mdReplaced st root then FragmentedMarkdown.init root
          else st.md.getD (FragmentedMarkdown.init root)).reset) [] [] := rfl

/-- C10 counterexample: full render of the single item `B(5)` from a fresh
renderer.  At the suspension point of `B`'s own yield the timestamp cache
is still empty — the write of line 92 runs only when the generator is
resumed — so a consumer that abandons the generator right after receiving
`B`'s pair leaves `B` emitted but without its updated cache entry (the next
partial render would re-render it, not skip it), refuting the claim that
every item emitted before the abort keeps its updated entry. -/
theorem C10_abandon_after_yield_loses_last_write :
    ((process trivEngine initState "root" false [(itemB, 5)]).trace.map
        fun x => (x.1.1, x.2))
      = [("B", ([] : List (String × Int))), ("footer", [("B", 5)])] := by
  decide

/-- C10 (amended): the timestamp cache entry for an item is written only
when the generator is resumed after yielding that item's pair.
Consequently (first conjunct) at the suspension point of the `k`-th yield
of a non-diverging call the cache equals the executed pass's starting cache
updated with the writes of the first `k` yields only, so on abandonment
every emitted item except possibly the most recently emitted keeps its
updated entry while items not yet emitted retain their old entries; and
(second conjunct) an exception abort happens between resumptions, so when
the `except` clause receives an exception every emitted item — the most
recent included — has its updated entry and no other entry changed. -/
theorem C10_cache_write_discipline (e : MdEngine) (st : RendererState) (root : String)
    (part : Bool) (items : List (Item × Int))
    (hdv : (process e st root part items).diverged = false) :
    (∀ (k : Nat) (x : (String × String) × List (String × Int)),
      (process e st root part items).trace.get? k = some x →
      x.2 = dinsertList (passBaseB st part (process e st root part items).restarted)
        ((passWritesB st part (process e st root part items).restarted items).take k)) ∧
    (∀ (o : ExnOracle) (pe : PyExn),
      (bodyE o e st root part items).exn = some pe →
      (bodyE o e st root part items).state.cache
        = dinsertList (passBaseB st part (bodyE o e st root part items).restarted)
          ((passWritesB st part (bodyE o e st root part items).restarted items).take
            (bodyE o e st root part items).outputs.length)) := by
  have hconv : (items.filterMap fun p =>
      if skipB ([] : List (String × Int)) false p then none else some (p.1.uid, p.2))
      = items.map fun p => (p.1.uid, p.2) := by
    simp [skipB, filterMap_some_eq_map]
  constructor
  · cases part with
    | false =>
      rw [process_full_def] at hdv ⊢
      set md1 := (if mdReplaced st root then FragmentedMarkdown.init root
        else st.md.getD (FragmentedMarkdown.init root)).reset with hmd1
      cases h : prepLoop e false [] items md1 [] (ProgressTracker.init (items.length * 2)) with
      | done md2 prep pr2 t2 evs1 =>
        rw [runPassN_done e root items st.current_root 1 false md1 [] [] h]
        intro k x hx
        have hsnap := finishPass_snapshots e items st.current_root false [] md2 prep pr2 t2
          evs1 (prepLoop_done_isSome e false [] items md1 [] _ h) k hx
        rw [hconv] at hsnap
        show x.2 = dinsertList (passBaseB st false false)
          ((passWritesB st false false items).take k)
        simpa [passBaseB, passWritesB] using hsnap
      | restart mdR evs =>
        rw [runPassN_restart_succ e root items st.current_root 0 false md1 [] [] h] at hdv ⊢
        set md2 := FragmentedMarkdown.reset
          (if root != st.current_root then FragmentedMarkdown.init root else mdR) with hmd2
        cases h2 : prepLoop e false [] items md2 []
            (ProgressTracker.init (items.length * 2)) with
        | restart m2 evs2 =>
          rw [runPassN_restart0 e root items st.current_root false md2 [] [] h2] at hdv
          simp at hdv
        | done md3 prep pr2 t2 evs1 =>
          intro k x hx
          have hx2 : (runPassN e root items st.current_root 0 false md2 [] []).trace.get? k
              = some x := hx
          rw [runPassN_done e root items st.current_root 0 false md2 [] [] h2] at hx2
          have hsnap := finishPass_snapshots e items st.current_root false [] md3 prep pr2 t2
            evs1 (prepLoop_done_isSome e false [] items md2 [] _ h2) k hx2
          rw [hconv] at hsnap
          show x.2 = dinsertList (passBaseB st false true)
            ((passWritesB st false true items).take k)
          simpa [passBaseB, passWritesB] using hsnap
    | true =>
      rw [process_partial_def] at hdv ⊢
      set md0 := if mdReplaced st root then FragmentedMarkdown.init root
        else st.md.getD (FragmentedMarkdown.init root) with hmd0
      cases h : prepLoop e true st.cache items md0 st.prev_refs
          (ProgressTracker.init (items.length * 2)) with
      | done md2 prep pr2 t2 evs1 =>
        rw [runPassN_done e root items st.current_root 1 true md0 st.cache st.prev_refs h]
        intro k x hx
        have hsnap := finishPass_snapshots e items st.current_root true st.cache md2 prep
          pr2 t2 evs1 (prepLoop_done_isSome e true st.cache items md0 st.prev_refs _ h) k hx
        show x.2 = dinsertList (passBaseB st true false)
          ((passWritesB st true false items).take k)
        simpa [passBaseB, passWritesB] using hsnap
      | restart mdR evs =>
        rw [runPassN_restart_succ e root items st.current_root 0 true md0 st.cache
          st.prev_refs h] at hdv ⊢
        set md2 := FragmentedMarkdown.reset
          (if root != st.current_root then FragmentedMarkdown.init root else mdR) with hmd2
        cases h2 : prepLoop e false [] items md2 []
            (ProgressTracker.init (items.length * 2)) with
        | restart m2 evs2 =>
          rw [runPassN_restart0 e root items st.current_root false md2 [] [] h2] at hdv
          simp at hdv
        | done md3 prep pr2 t2 evs1 =>
          intro k x hx
          have hx2 : (runPassN e root items st.current_root 0 false md2 [] []).trace.get? k
              = some x := hx
          rw [runPassN_done e root items st.current_root 0 false md2 [] [] h2] at hx2
          have hsnap := finishPass_snapshots e items st.current_root false [] md3 prep pr2 t2
            evs1 (prepLoop_done_isSome e false [] items md2 [] _ h2) k hx2
          rw [hconv] at hsnap
          show x.2 = dinsertList (passBaseB st true true)
            ((passWritesB st true true items).take k)
          simpa [passBaseB, passWritesB] using hsnap
  · intro o pe hexn
    cases part with
    | true =>
      rw [bodyE_partial_def] at hexn ⊢
      obtain ⟨hres, hcache⟩ := bodyPassN_exn o e root items st.current_root 1 true _
        st.cache st.prev_refs hexn
      rw [hres]
      show (bodyPassN o e root items st.current_root 1 true _ st.cache st.prev_refs).state.cache
        = dinsertList (passBaseB st true false)
          ((passWritesB st true false items).take
            (bodyPassN o e root items st.current_root 1 true _
              st.cache st.prev_refs).outputs.length)
      simpa [passBaseB, passWritesB] using hcache
    | false =>
      rw [bodyE_full_def] at hexn ⊢
      obtain ⟨hres, hcache⟩ := bodyPassN_exn o e root items st.current_root 1 false _ [] [] hexn
      rw [hres]
      rw [hconv] at hcache
      show (bodyPassN o e root items st.current_root 1 false _ [] []).state.cache
        = dinsertList (passBaseB st false false)
          ((passWritesB st false false items).take
            (bodyPassN o e root items st.current_root 1 false _ [] []).outputs.length)
      simpa [passBaseB, passWritesB] using hcache

/-- Witness for the amended C10 at the single-item full render. -/
theorem C10_cache_write_discipline_witness :
    ((process trivEngine initState "root" false [(itemB, 5)]).diverged = false) ∧
    ((∀ (k : Nat) (x : (String × String) × List (String × Int)),
      (process trivEngine initState "root" false [(itemB, 5)]).trace.get? k = some x →
      x.2 = dinsertList
        (passBaseB initState false
          (process trivEngine initState "root" false [(itemB, 5)]).restarted)
        ((passWritesB initState false
          (process trivEngine initState "root" false [(itemB, 5)]).restarted
          [(itemB, 5)]).take k)) ∧
    (∀ (o : ExnOracle) (pe : PyExn),
      (bodyE o trivEngine initState "root" false [(itemB, 5)]).exn = some pe →
      (bodyE o trivEngine initState "root" false [(itemB, 5)]).state.cache
        = dinsertList
          (passBaseB initState false
            (bodyE o trivEngine initState "root" false [(itemB, 5)]).restarted)
          ((passWritesB initState false
            (bodyE o trivEngine initState "root" false [(itemB, 5)]).restarted
            [(itemB, 5)]).take
            (bodyE o trivEngine initState "root" false [(itemB, 5)]).outputs.length))) :=
  ⟨by decide,
    C10_cache_write_discipline trivEngine initState "root" false [(itemB, 5)] (by decide)⟩

/-- C9: `process` never propagates an exception to its caller: whatever the
external pipeline raises while items are prepared or rendered (or while the
footer is built) reaches the `except Exception` clause of lines 101–102, is
logged, and the generator simply ends.  The caller receives exactly the
pairs, events and state the body produced up to the abort, no exception
escapes, and the renderer state remains available for subsequent `process`
calls. -/
theorem C9_no_exception_propagates (o : ExnOracle) (e : MdEngine) (st : RendererState)
    (root : String) (part : Bool) (items : List (Item × Int)) :
    (processE o e st root part items).exn = none ∧
    (processE o e st root part items).outputs = (bodyE o e st root part items).outputs ∧
    (processE o e st root part items).state = (bodyE o e st root part items).state ∧
    (processE o e st root part items).events = (bodyE o e st root part items).events := by
  unfold processE
  cases hx : (bodyE o e st root part items).exn <;> simp [hx]

end DoorstopEdit
